import Mathlib

/-!
# IFF Spotlight importer: the CFPlugIn object model of `IFFSpotlightImporter/main.c`

A shallow embedding of the plugin object code (factory, interface query,
reference counting, forwarding of the import call) together with theorems
about it.

Modelling conventions

* A pointer to an `MDImporterPluginType` is an address (`Addr`, a natural
  number); `NULL` is address `0`.  The C heap is a map from addresses to
  the objects stored there, `State.heap`.  Dereferencing an address that
  holds no object is undefined behaviour in C and is `none` here.
* `UInt32` / `ULONG` values are natural numbers, every arithmetic step is
  reduced modulo `2 ^ 32` explicitly.
* A `CFUUIDRef` is `Option CFUUID`: `none` is the null reference, `some u`
  a reference to the (uniqued) CoreFoundation object with the 128-bit value `u`.
* Calls into CoreFoundation that have an effect (`malloc`, `free`,
  `CFRetain`, `CFRelease`, the UUID constructors and the two registry calls)
  append an `Event` to `State.log`, in program order.
* The pointer returned by `malloc` is chosen by the C library; it is the
  argument `m` of `AllocPlugin` and of the factory.
* The identifiers `kMDImporterTypeID`, `kMDImporterInterfaceID` and
  `IUnknownUUID` come from system headers; they are arguments of the
  functions that use them.
-/

namespace IFFSpotlightImporter

/-! ## Data model -/

/-- An address in the C heap. -/
abbrev Addr := Nat

/-- The null pointer. -/
def NULL : Addr := 0

/-- The 128-bit value of a UUID (compared for equality only). -/
abbrev CFUUID := Nat

/-- A reference to a CoreFoundation UUID object; `none` is the null reference. -/
abbrev CFUUIDRef := Option CFUUID

/-- A value of type `MDImporterInterfaceStruct *`: either the address of the
single static table `gVTable`, or any other pointer value. -/
inductive VTablePtr where
  | gVTable : VTablePtr
  | other (a : Nat) : VTablePtr
deriving DecidableEq

/-- The plugin instance `MDImporterPluginType` (main.c, lines 13-17). -/
structure MDImporterPluginType where
  vtable : VTablePtr
  factoryID : CFUUIDRef
  refCount : Nat
deriving DecidableEq

/-- The two `HRESULT` values the code returns. -/
inductive HRESULT where
  | S_OK : HRESULT
  | E_NOINTERFACE : HRESULT
deriving DecidableEq

/-- Effects on the C library and on CoreFoundation, in program order. -/
inductive Event where
  | malloc (p : Addr) : Event
  | free (p : Addr) : Event
  | cfCreate (u : CFUUID) : Event
  | cfRetain (u : CFUUID) : Event
  | cfRelease (u : CFUUID) : Event
  | addInstance (u : CFUUID) : Event
  | removeInstance (u : CFUUID) : Event
deriving DecidableEq

/-- The state the code runs in: the heap of plugin objects, the process-wide
instance registry of CFPlugIn (a counter per factory identifier) and the log
of library effects. -/
structure State where
  heap : Addr → Option MDImporterPluginType
  registry : CFUUID → Int
  log : List Event

/-- The state of a process that has created nothing yet. -/
def State.init : State :=
  { heap := fun _ => none, registry := fun _ => 0, log := [] }

/-- Two to the thirty-second: the number of `UInt32` values. -/
def UInt32Size : Nat := 2 ^ 32

/-- The factory identifier of main.c, line 102:
`"9AA4D26D-7C0E-4635-B941-E8F367BC4D0E"`. -/
def kFactoryUUID : CFUUID := 0x9AA4D26D7C0E4635B941E8F367BC4D0E

/-! ## Library calls -/

/-- Record one library effect. -/
def State.emit (s : State) (e : Event) : State :=
  { s with log := s.log ++ [e] }

/-- Write an object to an address of the heap. -/
def State.store (s : State) (p : Addr) (o : MDImporterPluginType) : State :=
  { s with heap := Function.update s.heap p (some o) }

/-- Modelled from the spec: `CFPlugInAddInstanceForFactory` of CoreFoundation,
"an external counter ... incremented on construction", keyed by the
identifier it is called with. -/
def CFPlugInAddInstanceForFactory (f : CFUUID) (s : State) : State :=
  { s with registry := Function.update s.registry f (s.registry f + 1),
           log := s.log ++ [Event.addInstance f] }

/-- Modelled from the spec: `CFPlugInRemoveInstanceForFactory` of
CoreFoundation, "decremented on destruction", keyed by the identifier it is
called with. -/
def CFPlugInRemoveInstanceForFactory (f : CFUUID) (s : State) : State :=
  { s with registry := Function.update s.registry f (s.registry f - 1),
           log := s.log ++ [Event.removeInstance f] }

/-- The call `free(p)`: the storage at `p` is gone. -/
def free (p : Addr) (s : State) : State :=
  { s with heap := Function.update s.heap p none,
           log := s.log ++ [Event.free p] }

/-! ## The functions of main.c -/

/-- The function `AllocPlugin` (main.c, lines 39-46).  `m` is the pointer `malloc` returned.
Writing through a null `instance` and `CFRetain` of a null reference are
undefined. -/
def AllocPlugin (m : Addr) (factoryID : CFUUIDRef) (s : State) :
    Option (Addr × State) :=
  let s := s.emit (Event.malloc m)
  if m = NULL then none
  else
    match factoryID with
    | none => none
    | some f =>
      let s := s.emit (Event.cfRetain f)
      let s := s.store m { vtable := VTablePtr.gVTable, factoryID := some f, refCount := 1 }
      let s := CFPlugInAddInstanceForFactory f s
      some (m, s)

/-- The function `DeallocPlugin` (main.c, lines 48-55): the storage is freed
first; then, if the object held an identifier, one instance of it is
deregistered and the identifier is released. -/
def DeallocPlugin (inst : Addr) (s : State) : Option State :=
  match s.heap inst with
  | none => none
  | some obj =>
    let factoryID := obj.factoryID
    let s := free inst s
    match factoryID with
    | none => some s
    | some f =>
      let s := CFPlugInRemoveInstanceForFactory f s
      let s := s.emit (Event.cfRelease f)
      some s

/-- The function `PluginAddRef` (main.c, lines 74-76): `return ++instance->refCount;`. -/
def PluginAddRef (thisInstance : Addr) (s : State) : Option (Nat × State) :=
  match s.heap thisInstance with
  | none => none
  | some obj =>
    let rc := (obj.refCount + 1) % UInt32Size
    some (rc, s.store thisInstance { obj with refCount := rc })

/-- The function `PluginRelease` (main.c, lines 78-86): the `UInt32` count is
decremented; at 0 the object is deallocated and 0 is returned, otherwise the
new count is returned. -/
def PluginRelease (thisInstance : Addr) (s : State) : Option (Nat × State) :=
  match s.heap thisInstance with
  | none => none
  | some obj =>
    let rc := (obj.refCount + UInt32Size - 1) % UInt32Size
    let s := s.store thisInstance { obj with refCount := rc }
    if rc = 0 then
      match DeallocPlugin thisInstance s with
      | none => none
      | some s => some (0, s)
    else some (rc, s)

/-- The function `QueryInterface` (main.c, lines 57-72).  The result is the status, the
value written to `*ppv`, and the new state. -/
def QueryInterface (kMDImporterInterfaceID IUnknownUUID : CFUUID)
    (thisInstance : Addr) (iid : CFUUID) (s : State) :
    Option (HRESULT × Addr × State) :=
  let interfaceID := iid
  let s := s.emit (Event.cfCreate interfaceID)
  if interfaceID = kMDImporterInterfaceID ∨ interfaceID = IUnknownUUID then
    match s.heap thisInstance with
    | none => none
    | some obj =>
      let s := s.store thisInstance { obj with vtable := VTablePtr.gVTable }
      match PluginAddRef thisInstance s with
      | none => none
      | some (_, s) =>
        let ppv := thisInstance
        let s := s.emit (Event.cfRelease interfaceID)
        some (HRESULT.S_OK, ppv, s)
  else
    let ppv := NULL
    let s := s.emit (Event.cfRelease interfaceID)
    some (HRESULT.E_NOINTERFACE, ppv, s)

/-- The function `MetadataImporterPluginFactory` (main.c, lines 99-108).  The allocator
argument is not used by the code and is left out; `m` is the pointer `malloc`
returns if the factory gets to call it. -/
def MetadataImporterPluginFactory (kMDImporterTypeID : CFUUID) (m : Addr)
    (typeID : CFUUID) (s : State) : Option (Addr × State) :=
  if typeID = kMDImporterTypeID then
    let factoryID := kFactoryUUID
    let s := s.emit (Event.cfCreate factoryID)
    match AllocPlugin m (some factoryID) s with
    | none => none
    | some (result, s) =>
      let s := s.emit (Event.cfRelease factoryID)
      some (result, s)
  else some (NULL, s)

/-- A CoreFoundation string. -/
abbrev CFStringRef := String

/-- The content of a mutable attribute dictionary: field names to values. -/
abbrev CFMutableDictionaryRef := List (String × String)

/-- The type of the external analyzer `GetMetadataForFile` (main.c, lines
7-10; implemented elsewhere): from the four arguments to the success flag and
the content of the attribute dictionary when it returns. -/
abbrev Analyzer :=
  Addr → CFMutableDictionaryRef → CFStringRef → CFStringRef → Bool × CFMutableDictionaryRef

/-- The function `ImporterImportData` (main.c, lines 88-96): the four
arguments are passed on to the analyzer and its result is returned. -/
def ImporterImportData (GetMetadataForFile : Analyzer) (thisInstance : Addr)
    (attributes : CFMutableDictionaryRef) (contentTypeUTI pathToFile : CFStringRef) :
    Bool × CFMutableDictionaryRef :=
  GetMetadataForFile thisInstance attributes contentTypeUTI pathToFile

/-! ## Calls through the dispatch table -/

/-- A call the host makes on a handle through one of the four function slots
of the dispatch table. -/
inductive Op where
  | queryInterface (iid : CFUUID) : Op
  | retain : Op
  | release : Op
  | invokeImport (attributes : CFMutableDictionaryRef)
      (contentTypeUTI pathToFile : CFStringRef) : Op
deriving DecidableEq

/-- What a call through the dispatch table returns. -/
inductive Ret where
  | hresult (r : HRESULT) (ppv : Addr) : Ret
  | count (n : Nat) : Ret
  | bool (b : Bool) (attributes : CFMutableDictionaryRef) : Ret
deriving DecidableEq

/-- One call on the handle `h`: the function the slot holds is run. -/
def call (kMDImporterInterfaceID IUnknownUUID : CFUUID) (g : Analyzer)
    (h : Addr) (op : Op) (s : State) : Option (Ret × State) :=
  match op with
  | Op.queryInterface iid =>
    match QueryInterface kMDImporterInterfaceID IUnknownUUID h iid s with
    | none => none
    | some (r, ppv, s1) => some (Ret.hresult r ppv, s1)
  | Op.retain =>
    match PluginAddRef h s with
    | none => none
    | some (n, s1) => some (Ret.count n, s1)
  | Op.release =>
    match PluginRelease h s with
    | none => none
    | some (n, s1) => some (Ret.count n, s1)
  | Op.invokeImport attributes contentTypeUTI pathToFile =>
    let r := ImporterImportData g h attributes contentTypeUTI pathToFile
    some (Ret.bool r.1 r.2, s)

/-- A sequence of calls on the handle `h`, one after the other. -/
def run (kMDImporterInterfaceID IUnknownUUID : CFUUID) (g : Analyzer) (h : Addr) :
    List Op → State → Option State
  | [], s => some s
  | op :: ops, s =>
    match call kMDImporterInterfaceID IUnknownUUID g h op s with
    | none => none
    | some (_, s1) => run kMDImporterInterfaceID IUnknownUUID g h ops s1

/-- Whether `QueryInterface` accepts the identifier (main.c, lines 60-61). -/
def supported (kMDImporterInterfaceID IUnknownUUID iid : CFUUID) : Bool :=
  decide (iid = kMDImporterInterfaceID ∨ iid = IUnknownUUID)

/-- The owning references a sequence of calls hands to the caller: one for
each `QueryInterface` that succeeds and one for each `PluginAddRef`. -/
def acquired (kI kU : CFUUID) : List Op → Nat
  | [] => 0
  | Op.queryInterface iid :: ops =>
    (if supported kI kU iid then 1 else 0) + acquired kI kU ops
  | Op.retain :: ops => 1 + acquired kI kU ops
  | _ :: ops => acquired kI kU ops

/-- The number of `PluginRelease` calls in a sequence. -/
def released : List Op → Nat
  | [] => 0
  | Op.release :: ops => 1 + released ops
  | _ :: ops => released ops

/-- The count of the specification, section 4.3, in its own words: "the number
of successful create+queryInterface calls that returned a live handle, minus
the number of release calls", for one `create` followed by the calls `ops`. -/
def specOutstanding (kI kU : CFUUID) (ops : List Op) : Int :=
  (1 + (ops.filter (fun op =>
      match op with
      | Op.queryInterface iid => supported kI kU iid
      | _ => false)).length : Nat) - (released ops : Nat)

/-- The caller protocol of sections 4.3 and 7(c) for a caller that holds `n`
owning references to a handle: a call is made only while at least one owning
reference is outstanding (the handle is not destroyed, and release is never
called more often than references are held), and no call overflows the
`UInt32` count. -/
def honours (kI kU : CFUUID) : Nat → List Op → Bool
  | _, [] => true
  | n, Op.queryInterface iid :: ops =>
    decide (1 ≤ n) &&
      (if supported kI kU iid then
        decide (n + 1 < UInt32Size) && honours kI kU (n + 1) ops
      else honours kI kU n ops)
  | n, Op.retain :: ops =>
    decide (1 ≤ n) && (decide (n + 1 < UInt32Size) && honours kI kU (n + 1) ops)
  | n, Op.release :: ops => decide (1 ≤ n) && honours kI kU (n - 1) ops
  | n, Op.invokeImport _ _ _ :: ops => decide (1 ≤ n) && honours kI kU n ops

/-! ## Reachable states and observers of the effect log -/

/-- The states a process can be in: it starts with nothing created; the host
calls the factory (with any TypeID; `malloc`, if called, returns a non-null
address that holds no object), and it makes calls through the dispatch table
on handles, as long as the call is defined (it does not dereference an address
that holds no object).  Every sequence of factory calls and calls that respect
the protocol is of this kind. -/
inductive Reachable (kT kI kU : CFUUID) (g : Analyzer) : State → Prop where
  | init : Reachable kT kI kU g State.init
  | create (s s1 : State) (m r : Addr) (typeID : CFUUID) :
      Reachable kT kI kU g s → m ≠ NULL → s.heap m = none →
      MetadataImporterPluginFactory kT m typeID s = some (r, s1) →
      Reachable kT kI kU g s1
  | call (s s1 : State) (h : Addr) (op : Op) (ret : Ret) :
      Reachable kT kI kU g s → call kI kU g h op s = some (ret, s1) →
      Reachable kT kI kU g s1

/-- The number of `malloc` calls in an effect log. -/
def mallocs (l : List Event) : Nat :=
  l.countP fun e => match e with
    | Event.malloc _ => true
    | _ => false

/-- The number of `free` calls in an effect log. -/
def frees (l : List Event) : Nat :=
  l.countP fun e => match e with
    | Event.free _ => true
    | _ => false

/-- The number of registry increments (for any identifier) in an effect log. -/
def adds (l : List Event) : Nat :=
  l.countP fun e => match e with
    | Event.addInstance _ => true
    | _ => false

/-- The number of registry decrements (for any identifier) in an effect log. -/
def removes (l : List Event) : Nat :=
  l.countP fun e => match e with
    | Event.removeInstance _ => true
    | _ => false

/-- What holds of every object the code builds: its dispatch-table reference
is the static table, its owner is the factory identifier, and its count is a
`UInt32` value. -/
def WellFormed (o : MDImporterPluginType) : Prop :=
  o.vtable = VTablePtr.gVTable ∧ o.factoryID = some kFactoryUUID ∧
    o.refCount < UInt32Size

/-- The invariant of the reachable states. -/
structure Inv (s : State) : Prop where
  wf : ∀ p obj, s.heap p = some obj → WellFormed obj
  others : ∀ u, u ≠ kFactoryUUID → s.registry u = 0
  adds_eq : adds s.log = mallocs s.log
  removes_eq : removes s.log = frees s.log
  balance : s.registry kFactoryUUID + (frees s.log : Int) = (mallocs s.log : Int)
  live : ∃ A : Finset Addr, (∀ p, p ∈ A ↔ s.heap p ≠ none) ∧
    (A.card : Int) = s.registry kFactoryUUID

/-- Call `PluginRelease` on the same handle `k` times in a row; the result is
the list of the values returned, first call first, and the last state. -/
def releaseTimes : Nat → Addr → State → Option (List Nat × State)
  | 0, _, s => some ([], s)
  | k + 1, h, s =>
    match PluginRelease h s with
    | none => none
    | some (r, s1) =>
      match releaseTimes k h s1 with
      | none => none
      | some (rs, s2) => some (r :: rs, s2)

/-! ## The static dispatch table and further observers -/

/-- The four functions of main.c whose addresses the dispatch table holds. -/
inductive DispatchFn where
  | QueryInterface : DispatchFn
  | PluginAddRef : DispatchFn
  | PluginRelease : DispatchFn
  | ImporterImportData : DispatchFn
deriving DecidableEq

/-- The initializer of the static table `gVTable` (main.c, lines 31-37), slot
by slot in the order written; `none` is the `NULL` of the first line. -/
def gVTable : List (Option DispatchFn) :=
  [none,
   some DispatchFn.QueryInterface,
   some DispatchFn.PluginAddRef,
   some DispatchFn.PluginRelease,
   some DispatchFn.ImporterImportData]

/-- The function of main.c that `call` runs for a call of the host. -/
def Op.target : Op → DispatchFn
  | Op.queryInterface _ => DispatchFn.QueryInterface
  | Op.retain => DispatchFn.PluginAddRef
  | Op.release => DispatchFn.PluginRelease
  | Op.invokeImport _ _ _ => DispatchFn.ImporterImportData

/-- An analyzer that does nothing but add one entry to the dictionary each
time it is called, naming the content type and the path it was called with. -/
def recordingAnalyzer : Analyzer :=
  fun _ attributes contentTypeUTI pathToFile =>
    (true, attributes ++ [(contentTypeUTI, pathToFile)])

/-- Whether both effects occur in a log and the first occurrence of `a` comes
before the first occurrence of `b`. -/
def precedes (a b : Event) (l : List Event) : Bool :=
  decide (a ∈ l ∧ b ∈ l ∧ l.indexOf a < l.indexOf b)

/-- The CoreFoundation ownership the code holds on the identifier object `u`
according to an effect log: one reference for each creation and each retain,
one less for each release. -/
def cfBalance (u : CFUUID) (l : List Event) : Int :=
  (l.count (Event.cfCreate u) : Int) + (l.count (Event.cfRetain u) : Int)
    - (l.count (Event.cfRelease u) : Int)

/-- Whether a factory call was a successful create: it returned a handle. -/
def isCreation (r : Addr) : Bool :=
  decide (r ≠ NULL)

/-- Whether a call was a release that returned 0, the value `PluginRelease`
returns when it has destroyed the object. -/
def isDestruction : Op → Ret → Bool
  | Op.release, Ret.count n => decide (n = 0)
  | _, _ => false

/-- The histories of a process, as `Reachable`, together with the number `c`
of factory calls so far that returned a handle and the number `d` of release
calls so far that returned 0. -/
inductive History (kT kI kU : CFUUID) (g : Analyzer) : State → Nat → Nat → Prop where
  | init : History kT kI kU g State.init 0 0
  | create (s s1 : State) (m r : Addr) (typeID : CFUUID) (c d : Nat) :
      History kT kI kU g s c d → m ≠ NULL → s.heap m = none →
      MetadataImporterPluginFactory kT m typeID s = some (r, s1) →
      History kT kI kU g s1 (c + if isCreation r then 1 else 0) d
  | call (s s1 : State) (h : Addr) (op : Op) (ret : Ret) (c d : Nat) :
      History kT kI kU g s c d → call kI kU g h op s = some (ret, s1) →
      History kT kI kU g s1 c (d + if isDestruction op ret then 1 else 0)

/-! ## Theorems -/

/-- The state a successful factory call leaves behind. -/
theorem factory_eq (k : CFUUID) (m : Addr) (s : State) (hm : m ≠ NULL) :
    MetadataImporterPluginFactory k m k s =
      some (m, (CFPlugInAddInstanceForFactory kFactoryUUID
        ((((s.emit (Event.cfCreate kFactoryUUID)).emit (Event.malloc m)).emit
            (Event.cfRetain kFactoryUUID)).store m
          { vtable := VTablePtr.gVTable, factoryID := some kFactoryUUID,
            refCount := 1 })).emit (Event.cfRelease kFactoryUUID)) := by
  simp [MetadataImporterPluginFactory, AllocPlugin, hm]

/-- Counterexample to C1 as stated: a factory call with the registered TypeID
in which `malloc` returns null.  `AllocPlugin` writes through the null pointer
(main.c, lines 40-41, no check), so the call has no defined result; it does not
return a non-null handle to a new object. -/
theorem factory_malloc_null_counterexample :
    MetadataImporterPluginFactory 7 NULL 7 State.init = none ∧
    ¬ ∃ r s1, MetadataImporterPluginFactory 7 NULL 7 State.init = some (r, s1) ∧
        r ≠ NULL := by
  have h : MetadataImporterPluginFactory 7 NULL 7 State.init = none := by
    simp [MetadataImporterPluginFactory, AllocPlugin]
  refine ⟨h, ?_⟩
  rintro ⟨r, s1, hr, _⟩
  rw [h] at hr
  exact Option.noConfusion hr

/-- C1, amended: a factory call with the registered TypeID in which the
allocation succeeds (`malloc` returns a non-null address `m` that holds no
live object) returns `m` as the handle to a new object with refCount 1 whose
dispatch table is the shared static table; the registry count of the factory
identifier grows by exactly 1 and no other count changes; the handle differs
from every handle that was live before the call, and those objects are
untouched.  The pre-state is arbitrary, so this holds at every call of any
sequence of such calls; in particular a second such call returns a handle
different from the first and leaves the first object as it was, the registry
count having grown by 2. -/
theorem factory_registered_creates (k : CFUUID) (m : Addr) (s : State)
    (hm : m ≠ NULL) (hfresh : s.heap m = none) :
    ∃ s', MetadataImporterPluginFactory k m k s = some (m, s') ∧
      s'.heap m = some { vtable := VTablePtr.gVTable,
                         factoryID := some kFactoryUUID, refCount := 1 } ∧
      s'.registry kFactoryUUID = s.registry kFactoryUUID + 1 ∧
      (∀ u, u ≠ kFactoryUUID → s'.registry u = s.registry u) ∧
      (∀ h obj, s.heap h = some obj → h ≠ m ∧ s'.heap h = some obj) ∧
      (∀ m2, m2 ≠ NULL → s'.heap m2 = none →
        ∃ s2, MetadataImporterPluginFactory k m2 k s' = some (m2, s2) ∧ m2 ≠ m ∧
          s2.heap m = some { vtable := VTablePtr.gVTable,
                             factoryID := some kFactoryUUID, refCount := 1 } ∧
          s2.heap m2 = some { vtable := VTablePtr.gVTable,
                              factoryID := some kFactoryUUID, refCount := 1 } ∧
          s2.registry kFactoryUUID = s.registry kFactoryUUID + 2) := by
  refine ⟨_, factory_eq k m s hm, ?_, ?_, ?_, ?_, ?_⟩
  · simp [State.emit, State.store, CFPlugInAddInstanceForFactory]
  · simp [State.emit, State.store, CFPlugInAddInstanceForFactory]
  · intro u hu
    simp [State.emit, State.store, CFPlugInAddInstanceForFactory, Function.update, hu]
  · intro h obj hh
    have hne : h ≠ m := by
      intro e
      rw [e, hfresh] at hh
      exact Option.noConfusion hh
    refine ⟨hne, ?_⟩
    simp [State.emit, State.store, CFPlugInAddInstanceForFactory, Function.update, hne, hh]
  · intro m2 hm2 hfresh2
    have hne : m2 ≠ m := by
      intro e
      rw [e] at hfresh2
      simp [State.emit, State.store, CFPlugInAddInstanceForFactory] at hfresh2
    refine ⟨_, factory_eq k m2 _ hm2, hne, ?_, ?_, ?_⟩
    · simp [State.emit, State.store, CFPlugInAddInstanceForFactory, Function.update,
        Ne.symm hne]
    · simp [State.emit, State.store, CFPlugInAddInstanceForFactory]
    · simp [State.emit, State.store, CFPlugInAddInstanceForFactory]
      ring

/-- Witness of C1 amended: an object with refCount 3 is live at address 16 and
`malloc` returns address 32; the new handle is 32 and the object at 16 is
untouched. -/
theorem factory_registered_creates_witness :
    (32 : Addr) ≠ NULL ∧
    (State.init.store 16
      (MDImporterPluginType.mk VTablePtr.gVTable (some kFactoryUUID) 3)).heap 32 = none ∧
    ∃ s', MetadataImporterPluginFactory 7 32 7
        (State.init.store 16
          (MDImporterPluginType.mk VTablePtr.gVTable (some kFactoryUUID) 3)) =
          some (32, s') ∧
      s'.heap 32 =
        some (MDImporterPluginType.mk VTablePtr.gVTable (some kFactoryUUID) 1) ∧
      ((16 : Addr) ≠ 32 ∧ s'.heap 16 =
        some (MDImporterPluginType.mk VTablePtr.gVTable (some kFactoryUUID) 3)) :=
  ⟨by decide, by simp [State.store, State.init],
    (factory_registered_creates 7 32
      (State.init.store 16
        (MDImporterPluginType.mk VTablePtr.gVTable (some kFactoryUUID) 3))
      (by decide) (by simp [State.store, State.init])).imp
      fun _ hs => ⟨hs.1, hs.2.1, hs.2.2.2.2.1 16 _ (by simp [State.store])⟩⟩

/-- C2: for a TypeID other than the registered one the factory returns null
and the whole state (heap of objects, registry, effect log) is unchanged. -/
theorem factory_unregistered_null (k : CFUUID) (m : Addr) (typeID : CFUUID)
    (s : State) (h : typeID ≠ k) :
    MetadataImporterPluginFactory k m typeID s = some (NULL, s) := by
  simp [MetadataImporterPluginFactory, h]

/-- Witness of C2: TypeID 8 when 7 is registered. -/
theorem factory_unregistered_null_witness :
    (8 : CFUUID) ≠ 7 ∧
      MetadataImporterPluginFactory 7 16 8 State.init = some (NULL, State.init) :=
  ⟨by decide, factory_unregistered_null 7 16 8 State.init (by decide)⟩

/-- The result of `PluginAddRef` on an allocated object. -/
theorem addRef_eq (h : Addr) (s : State) (obj : MDImporterPluginType)
    (hlive : s.heap h = some obj) :
    PluginAddRef h s =
      some ((obj.refCount + 1) % UInt32Size,
        s.store h { obj with refCount := (obj.refCount + 1) % UInt32Size }) := by
  simp [PluginAddRef, hlive]

/-- The result of `PluginRelease` when the decremented count is not zero. -/
theorem release_eq_nonzero (h : Addr) (s : State) (obj : MDImporterPluginType)
    (hlive : s.heap h = some obj)
    (hnz : (obj.refCount + UInt32Size - 1) % UInt32Size ≠ 0) :
    PluginRelease h s =
      some ((obj.refCount + UInt32Size - 1) % UInt32Size,
        s.store h { obj with refCount := (obj.refCount + UInt32Size - 1) % UInt32Size }) := by
  simp [PluginRelease, hlive, hnz]

/-- The result of `PluginRelease` when the decremented count is zero and the
object holds a factory identifier. -/
theorem release_eq_zero (h : Addr) (s : State) (obj : MDImporterPluginType)
    (f : CFUUID) (hlive : s.heap h = some obj) (hf : obj.factoryID = some f)
    (hz : (obj.refCount + UInt32Size - 1) % UInt32Size = 0) :
    PluginRelease h s =
      some (0, (CFPlugInRemoveInstanceForFactory f
        (free h (s.store h { obj with refCount := 0 }))).emit (Event.cfRelease f)) := by
  simp [PluginRelease, DeallocPlugin, hlive, hz, hf, State.store]

/-- On a `UInt32` count of at least 1 the decrement does not wrap. -/
theorem dec_mod (n : Nat) (h1 : 1 ≤ n) (h2 : n < UInt32Size) :
    (n + UInt32Size - 1) % UInt32Size = n - 1 := by
  unfold UInt32Size at *
  omega

/-- The result of `QueryInterface` for a supported identifier. -/
theorem queryInterface_eq_ok (kI kU : CFUUID) (h : Addr) (iid : CFUUID)
    (s : State) (obj : MDImporterPluginType)
    (hlive : s.heap h = some obj) (hiid : iid = kU ∨ iid = kI) :
    QueryInterface kI kU h iid s =
      some (HRESULT.S_OK, h,
        (((s.emit (Event.cfCreate iid)).store h
            { obj with vtable := VTablePtr.gVTable }).store h
            { vtable := VTablePtr.gVTable, factoryID := obj.factoryID,
              refCount := (obj.refCount + 1) % UInt32Size }).emit
          (Event.cfRelease iid)) := by
  have hc : iid = kI ∨ iid = kU := hiid.symm
  simp only [QueryInterface, if_pos hc]
  have h1 : (s.emit (Event.cfCreate iid)).heap h = some obj := hlive
  rw [h1]
  simp only []
  rw [addRef_eq h _ { obj with vtable := VTablePtr.gVTable }
    (by simp [State.store])]

/-- The result of `QueryInterface` for an unsupported identifier. -/
theorem queryInterface_eq_fail (kI kU : CFUUID) (h : Addr) (iid : CFUUID)
    (s : State) (hI : iid ≠ kI) (hU : iid ≠ kU) :
    QueryInterface kI kU h iid s =
      some (HRESULT.E_NOINTERFACE, NULL,
        (s.emit (Event.cfCreate iid)).emit (Event.cfRelease iid)) := by
  simp only [QueryInterface, hI, hU, or_self, if_false]

/-- C3: on an allocated object, `QueryInterface` with the base identifier
`IUnknownUUID` or with the importer identifier `kMDImporterInterfaceID`
returns `S_OK`, writes the input handle to the out handle, and increments the
`UInt32` refCount by 1 (exactly `old + 1` unless the field is at its maximum);
the dispatch-table reference is the static table, the owner identifier, all
other objects and the registry are unchanged.  The result does not depend on
which of the two identifiers was asked for, except for the identity of the
temporary identifier object that is created and released. -/
theorem queryInterface_supported (kI kU : CFUUID) (h : Addr) (iid : CFUUID)
    (s : State) (obj : MDImporterPluginType)
    (hlive : s.heap h = some obj) (hiid : iid = kU ∨ iid = kI) :
    ∃ s', QueryInterface kI kU h iid s = some (HRESULT.S_OK, h, s') ∧
      s'.heap = Function.update s.heap h
        (some { vtable := VTablePtr.gVTable, factoryID := obj.factoryID,
                refCount := (obj.refCount + 1) % UInt32Size }) ∧
      (obj.refCount + 1 < UInt32Size →
        (obj.refCount + 1) % UInt32Size = obj.refCount + 1) ∧
      s'.registry = s.registry ∧
      s'.log = s.log ++ [Event.cfCreate iid, Event.cfRelease iid] := by
  refine ⟨_, queryInterface_eq_ok kI kU h iid s obj hlive hiid, ?_,
    fun hlt => Nat.mod_eq_of_lt hlt, ?_, ?_⟩
  · simp [State.store, State.emit]
  · simp [State.store, State.emit]
  · simp [State.store, State.emit]

/-- Witness of C3: an object with refCount 1 and a stray dispatch-table
reference, asked for the importer interface. -/
theorem queryInterface_supported_witness :
    ∃ s', QueryInterface 5 6 16 5
        (State.init.store 16 (MDImporterPluginType.mk (VTablePtr.other 3) (some 4) 1)) =
          some (HRESULT.S_OK, 16, s') ∧
      s'.heap = Function.update
        (State.init.store 16 (MDImporterPluginType.mk (VTablePtr.other 3) (some 4) 1)).heap 16
        (some (MDImporterPluginType.mk VTablePtr.gVTable (some 4) ((1 + 1) % UInt32Size))) ∧
      (1 + 1 < UInt32Size → (1 + 1) % UInt32Size = 1 + 1) ∧
      s'.registry =
        (State.init.store 16 (MDImporterPluginType.mk (VTablePtr.other 3) (some 4) 1)).registry ∧
      s'.log =
        (State.init.store 16 (MDImporterPluginType.mk (VTablePtr.other 3) (some 4) 1)).log
          ++ [Event.cfCreate 5, Event.cfRelease 5] :=
  queryInterface_supported 5 6 16 5
    (State.init.store 16 (MDImporterPluginType.mk (VTablePtr.other 3) (some 4) 1))
    (MDImporterPluginType.mk (VTablePtr.other 3) (some 4) 1)
    (by simp [State.store]) (Or.inr rfl)

/-- C4: for an identifier that is neither the base identifier nor the importer
identifier, `QueryInterface` returns `E_NOINTERFACE`, writes null to the out
handle and changes neither the heap (so no refCount, dispatch-table reference
or owner identifier) nor the registry; only the temporary identifier object is
created and released. -/
theorem queryInterface_unsupported (kI kU : CFUUID) (h : Addr) (iid : CFUUID)
    (s : State) (hI : iid ≠ kI) (hU : iid ≠ kU) :
    ∃ s', QueryInterface kI kU h iid s = some (HRESULT.E_NOINTERFACE, NULL, s') ∧
      s'.heap = s.heap ∧ s'.registry = s.registry ∧
      s'.log = s.log ++ [Event.cfCreate iid, Event.cfRelease iid] := by
  refine ⟨_, queryInterface_eq_fail kI kU h iid s hI hU, ?_, ?_, ?_⟩
  · simp [State.emit]
  · simp [State.emit]
  · simp [State.emit]

/-- Witness of C4: identifier 9 when 5 and 6 are the supported ones. -/
theorem queryInterface_unsupported_witness :
    (9 : CFUUID) ≠ 5 ∧ (9 : CFUUID) ≠ 6 ∧
    ∃ s', QueryInterface 5 6 16 9
        (State.init.store 16 (MDImporterPluginType.mk VTablePtr.gVTable (some 4) 1)) =
          some (HRESULT.E_NOINTERFACE, NULL, s') ∧
      s'.heap =
        (State.init.store 16 (MDImporterPluginType.mk VTablePtr.gVTable (some 4) 1)).heap ∧
      s'.registry =
        (State.init.store 16 (MDImporterPluginType.mk VTablePtr.gVTable (some 4) 1)).registry ∧
      s'.log =
        (State.init.store 16 (MDImporterPluginType.mk VTablePtr.gVTable (some 4) 1)).log
          ++ [Event.cfCreate 9, Event.cfRelease 9] :=
  ⟨by decide, by decide,
    queryInterface_unsupported 5 6 16 9 _ (by decide) (by decide)⟩

/-- Storing the object an address already holds changes nothing. -/
theorem store_self (s : State) (h : Addr) (obj : MDImporterPluginType)
    (hlive : s.heap h = some obj) : s.store h obj = s := by
  cases s with
  | mk heap registry log =>
    simp only [State.store, State.mk.injEq, and_true]
    exact (Function.update_eq_self_iff).2 hlive.symm

/-- A second store to the same address overwrites the first. -/
theorem store_store (s : State) (h : Addr) (a b : MDImporterPluginType) :
    (s.store h a).store h b = s.store h b := by
  simp [State.store]

/-- C5: `PluginRelease` on a live object (allocated, `UInt32` refCount at
least 1, holding the factory identifier `f`) returns the decremented count
`refCount - 1`.  If that is 0 the object is freed and exactly one instance of
`f` is deregistered (no other registry count changes); if it is not 0 the
object stays, with refCount decremented by 1, and registry and effect log are
unchanged.  The call returns 0 iff it destroyed the object iff refCount was 1
before the call. -/
theorem release_contract (h : Addr) (s : State) (obj : MDImporterPluginType)
    (f : CFUUID) (hlive : s.heap h = some obj) (hf : obj.factoryID = some f)
    (hpos : 1 ≤ obj.refCount) (hrc : obj.refCount < UInt32Size) :
    ∃ r s', PluginRelease h s = some (r, s') ∧ r = obj.refCount - 1 ∧
      (obj.refCount - 1 = 0 →
        s'.heap = Function.update s.heap h none ∧
        s'.registry = Function.update s.registry f (s.registry f - 1) ∧
        s'.log = s.log ++ [Event.free h, Event.removeInstance f, Event.cfRelease f]) ∧
      (obj.refCount - 1 ≠ 0 →
        s'.heap = Function.update s.heap h
          (some { obj with refCount := obj.refCount - 1 }) ∧
        s'.registry = s.registry ∧ s'.log = s.log) ∧
      (r = 0 ↔ s'.heap h = none) ∧ (s'.heap h = none ↔ obj.refCount = 1) := by
  have hd := dec_mod obj.refCount hpos hrc
  by_cases hz : obj.refCount - 1 = 0
  · have h1 : obj.refCount = 1 := by omega
    refine ⟨0, _, release_eq_zero h s obj f hlive hf (by rw [hd]; exact hz), by omega,
      ?_, fun hn => absurd hz hn, ?_, ?_⟩
    · intro _
      simp [State.emit, CFPlugInRemoveInstanceForFactory, free, State.store]
    · simp [State.emit, CFPlugInRemoveInstanceForFactory, free, State.store]
    · simp [State.emit, CFPlugInRemoveInstanceForFactory, free, State.store, h1]
  · have h1 : obj.refCount ≠ 1 := by omega
    refine ⟨(obj.refCount + UInt32Size - 1) % UInt32Size, _,
      release_eq_nonzero h s obj hlive (by rw [hd]; exact hz), hd,
      fun hn => absurd hn hz, ?_, ?_, ?_⟩
    · intro _
      simp [State.store, hd]
    · simp [State.store, hd, hz]
    · simp [State.store, h1]

/-- Witness of C5: the last reference to an object is released. -/
theorem release_contract_witness :
    ∃ r s', PluginRelease 16
        (State.init.store 16 (MDImporterPluginType.mk VTablePtr.gVTable (some 4) 1)) =
          some (r, s') ∧ r = 1 - 1 ∧ s'.heap 16 = none :=
  (release_contract 16
      (State.init.store 16 (MDImporterPluginType.mk VTablePtr.gVTable (some 4) 1))
      (MDImporterPluginType.mk VTablePtr.gVTable (some 4) 1) 4
      (by simp [State.store]) rfl (by decide) (by simp [UInt32Size])).imp
    fun _ hr => hr.imp fun _ hs => ⟨hs.1, hs.2.1, hs.2.2.2.2.2.2 rfl⟩

/-- The value of a count after `++` and then `--` on a `UInt32` field. -/
theorem inc_dec_mod (n : Nat) (h2 : n < UInt32Size) :
    ((n + 1) % UInt32Size + UInt32Size - 1) % UInt32Size = n := by
  unfold UInt32Size at *
  omega

/-- Fewer than refCount consecutive releases: every call returns the
decremented count, nothing is destroyed. -/
theorem releaseTimes_lt (h : Addr) :
    ∀ (k : Nat) (s : State) (obj : MDImporterPluginType),
      s.heap h = some obj → k < obj.refCount → obj.refCount < UInt32Size →
      releaseTimes k h s =
        some ((List.range k).map (fun i => obj.refCount - 1 - i),
          s.store h { obj with refCount := obj.refCount - k }) := by
  intro k
  induction k with
  | zero =>
    intro s obj hlive _ _
    simp [releaseTimes, store_self s h obj hlive]
  | succ k ih =>
    intro s obj hlive hk hrc
    have hd := dec_mod obj.refCount (by omega) hrc
    have hnz : (obj.refCount + UInt32Size - 1) % UInt32Size ≠ 0 := by
      rw [hd]; omega
    have hstep := release_eq_nonzero h s obj hlive hnz
    rw [hd] at hstep
    have hlive1 : (s.store h { obj with refCount := obj.refCount - 1 }).heap h =
        some { obj with refCount := obj.refCount - 1 } := by
      simp [State.store]
    have hrec := ih _ _ hlive1 (by simpa using (by omega : k < obj.refCount - 1))
      (by simpa using (by omega : obj.refCount - 1 < UInt32Size))
    simp only [releaseTimes, hstep, hrec, store_store]
    have e1 : obj.refCount - 1 - k = obj.refCount - (k + 1) := by omega
    rw [List.range_succ_eq_map, List.map_cons, List.map_map, e1]
    have e2 : ((fun i => obj.refCount - 1 - i) ∘ Nat.succ) =
        (fun i => obj.refCount - 1 - 1 - i) := by
      funext i
      simp only [Function.comp]
      omega
    rw [e2]
    rfl

/-- The function `releaseTimes` splits at its last call. -/
theorem releaseTimes_succ_last (h : Addr) :
    ∀ (k : Nat) (s s1 : State) (rs : List Nat),
      releaseTimes k h s = some (rs, s1) →
      releaseTimes (k + 1) h s =
        match PluginRelease h s1 with
        | none => none
        | some (r, s2) => some (rs ++ [r], s2) := by
  intro k
  induction k with
  | zero =>
    intro s s1 rs hk
    simp only [releaseTimes, Option.some.injEq, Prod.mk.injEq] at hk
    obtain ⟨rfl, rfl⟩ := hk
    cases hp : PluginRelease h s with
    | none => simp [releaseTimes, hp]
    | some q => simp [releaseTimes, hp]
  | succ k ih =>
    intro s s1 rs hk
    cases hp : PluginRelease h s with
    | none => simp [releaseTimes, hp] at hk
    | some q =>
      obtain ⟨r, sa⟩ := q
      cases hq : releaseTimes k h sa with
      | none => simp [releaseTimes, hp, hq] at hk
      | some w =>
        obtain ⟨rs1, sb⟩ := w
        have hk2 : r :: rs1 = rs ∧ sb = s1 := by
          simpa [releaseTimes, hp, hq] using hk
        obtain ⟨rfl, rfl⟩ := hk2
        have hi := ih sa sb rs1 hq
        rw [releaseTimes, hp]
        simp only []
        rw [hi]
        cases PluginRelease h sb with
        | none => rfl
        | some z => rfl

/-- C6: from refCount `N` (a `UInt32` value, at least 1) it takes exactly `N`
consecutive calls of `PluginRelease` to reach 0.  Any `k < N` calls return
`N-1, N-2, ..., N-k`, all nonzero, leave the object allocated with refCount
`N - k`, and leave the registry and the effect log (so no `free`, no
deregistration) unchanged.  `N` calls return `N-1, ..., 1` and then 0, free
the object and deregister exactly one instance of its factory identifier. -/
theorem release_N_times (h : Addr) (s : State) (obj : MDImporterPluginType)
    (f : CFUUID) (hlive : s.heap h = some obj) (hf : obj.factoryID = some f)
    (hpos : 1 ≤ obj.refCount) (hrc : obj.refCount < UInt32Size) :
    (∀ k, k < obj.refCount →
      ∃ s', releaseTimes k h s =
          some ((List.range k).map (fun i => obj.refCount - 1 - i), s') ∧
        (∀ r ∈ (List.range k).map (fun i => obj.refCount - 1 - i), r ≠ 0) ∧
        s'.heap = Function.update s.heap h
          (some { obj with refCount := obj.refCount - k }) ∧
        s'.registry = s.registry ∧ s'.log = s.log) ∧
    (∃ s', releaseTimes obj.refCount h s =
        some ((List.range (obj.refCount - 1)).map (fun i => obj.refCount - 1 - i)
          ++ [0], s') ∧
      s'.heap = Function.update s.heap h none ∧
      s'.registry = Function.update s.registry f (s.registry f - 1) ∧
      s'.log = s.log ++ [Event.free h, Event.removeInstance f, Event.cfRelease f]) := by
  constructor
  · intro k hk
    refine ⟨_, releaseTimes_lt h k s obj hlive hk hrc, ?_, ?_, ?_, ?_⟩
    · intro r hr
      simp only [List.mem_map, List.mem_range] at hr
      obtain ⟨i, hi, rfl⟩ := hr
      omega
    · simp [State.store]
    · simp [State.store]
    · simp [State.store]
  · have hpre := releaseTimes_lt h (obj.refCount - 1) s obj hlive (by omega) hrc
    have hsplit := releaseTimes_succ_last h _ _ _ _ hpre
    have e : obj.refCount - 1 + 1 = obj.refCount := by omega
    rw [e] at hsplit
    have e1 : obj.refCount - (obj.refCount - 1) = 1 := by omega
    rw [e1] at hsplit
    have hone : (1 + UInt32Size - 1) % UInt32Size = 0 := by
      unfold UInt32Size
      omega
    have hlast := release_eq_zero h (s.store h { obj with refCount := 1 })
      { obj with refCount := 1 } f (by simp [State.store]) hf hone
    rw [hlast] at hsplit
    simp only [] at hsplit
    refine ⟨_, hsplit, ?_, ?_, ?_⟩
    · simp [State.emit, CFPlugInRemoveInstanceForFactory, free, State.store]
    · simp [State.emit, CFPlugInRemoveInstanceForFactory, free, State.store]
    · simp [State.emit, CFPlugInRemoveInstanceForFactory, free, State.store]

/-- Witness of C6: an object with refCount 3 is released three times. -/
theorem release_N_times_witness :
    ∃ s', releaseTimes 3 16
        (State.init.store 16 (MDImporterPluginType.mk VTablePtr.gVTable (some 4) 3)) =
        some ((List.range (3 - 1)).map (fun i => 3 - 1 - i) ++ [0], s') ∧
      s'.heap = Function.update
        (State.init.store 16 (MDImporterPluginType.mk VTablePtr.gVTable (some 4) 3)).heap
        16 none ∧
      s'.registry = Function.update State.init.registry 4 (State.init.registry 4 - 1) ∧
      s'.log = State.init.log ++
        [Event.free 16, Event.removeInstance 4, Event.cfRelease 4] :=
  (release_N_times 16
    (State.init.store 16 (MDImporterPluginType.mk VTablePtr.gVTable (some 4) 3))
    (MDImporterPluginType.mk VTablePtr.gVTable (some 4) 3) 4
    (by simp [State.store]) rfl (by decide) (by simp [UInt32Size])).2

/-- C7: on a live object (allocated, `UInt32` refCount at least 1, the maximum
`2 ^ 32 - 1` included) `PluginAddRef` followed by `PluginRelease` gives back
the very same state: refCount, every other field, every other object, the
registry and the effect log are unchanged, so nothing was destroyed; the
release returns the original, nonzero count. -/
theorem addRef_release_restores (h : Addr) (s : State) (obj : MDImporterPluginType)
    (hlive : s.heap h = some obj)
    (hpos : 1 ≤ obj.refCount) (hrc : obj.refCount < UInt32Size) :
    ∃ r1 s1, PluginAddRef h s = some (r1, s1) ∧
      PluginRelease h s1 = some (obj.refCount, s) ∧ obj.refCount ≠ 0 := by
  refine ⟨_, _, addRef_eq h s obj hlive, ?_, by omega⟩
  have hid := inc_dec_mod obj.refCount hrc
  have hlive1 : (s.store h { obj with refCount := (obj.refCount + 1) % UInt32Size }).heap h
      = some { obj with refCount := (obj.refCount + 1) % UInt32Size } := by
    simp [State.store]
  have hstep := release_eq_nonzero h _ _ hlive1 (by simp only []; rw [hid]; omega)
  simp only [] at hstep
  rw [hid, store_store] at hstep
  rw [hstep]
  have : s.store h { obj with refCount := obj.refCount } = s := store_self s h obj hlive
  rw [this]

/-- Witness of C7: the refCount is at the largest `UInt32` value, so the
increment wraps to 0 and the decrement wraps back. -/
theorem addRef_release_restores_witness :
    ∃ r1 s1, PluginAddRef 16
        (State.init.store 16
          (MDImporterPluginType.mk VTablePtr.gVTable (some 4) 4294967295)) =
          some (r1, s1) ∧
      PluginRelease 16 s1 = some (4294967295,
        State.init.store 16
          (MDImporterPluginType.mk VTablePtr.gVTable (some 4) 4294967295)) ∧
      4294967295 ≠ 0 :=
  addRef_release_restores 16
    (State.init.store 16 (MDImporterPluginType.mk VTablePtr.gVTable (some 4) 4294967295))
    (MDImporterPluginType.mk VTablePtr.gVTable (some 4) 4294967295)
    (by simp [State.store]) (by decide) (by simp [UInt32Size])

/-- C8: `PluginAddRef` on an allocated object with a `UInt32` refCount stores
and returns `(refCount + 1) mod 2 ^ 32`; no other field, no other object, not
the registry and not the effect log change.  The new value is `refCount + 1`
exactly when `refCount < 2 ^ 32 - 1`. -/
theorem addRef_contract (h : Addr) (s : State) (obj : MDImporterPluginType)
    (hlive : s.heap h = some obj) (hrc : obj.refCount < UInt32Size) :
    ∃ s', PluginAddRef h s = some ((obj.refCount + 1) % 2 ^ 32, s') ∧
      s'.heap = Function.update s.heap h
        (some { vtable := obj.vtable, factoryID := obj.factoryID,
                refCount := (obj.refCount + 1) % 2 ^ 32 }) ∧
      s'.registry = s.registry ∧ s'.log = s.log ∧
      ((obj.refCount + 1) % 2 ^ 32 = obj.refCount + 1 ↔ obj.refCount < 2 ^ 32 - 1) := by
  refine ⟨_, addRef_eq h s obj hlive, ?_, ?_, ?_, ?_⟩
  · simp [State.store, UInt32Size]
  · simp [State.store]
  · simp [State.store]
  · unfold UInt32Size at hrc
    omega

/-- Witness of C8: at the largest `UInt32` value the count wraps to 0. -/
theorem addRef_contract_witness :
    ∃ s', PluginAddRef 16
        (State.init.store 16
          (MDImporterPluginType.mk VTablePtr.gVTable (some 4) 4294967295)) =
          some ((4294967295 + 1) % 2 ^ 32, s') ∧
      (4294967295 + 1) % 2 ^ 32 = 0 :=
  (addRef_contract 16
    (State.init.store 16 (MDImporterPluginType.mk VTablePtr.gVTable (some 4) 4294967295))
    (MDImporterPluginType.mk VTablePtr.gVTable (some 4) 4294967295)
    (by simp [State.store]) (by simp [UInt32Size])).imp
    fun _ hs => ⟨hs.1, by norm_num⟩

/-- No call is allowed once no owning reference is outstanding. -/
theorem honours_zero (kI kU : CFUUID) (ops : List Op)
    (hp : honours kI kU 0 ops = true) : ops = [] := by
  cases ops with
  | nil => rfl
  | cons op rest => cases op <;> simp [honours] at hp

/-- A sequence that honours the protocol does so up to every point in it, and
from that point on with the references then outstanding. -/
theorem honours_append (kI kU : CFUUID) :
    ∀ (pre : List Op) (n : Nat) (post : List Op),
      honours kI kU n (pre ++ post) = true →
      honours kI kU n pre = true ∧
        honours kI kU (n + acquired kI kU pre - released pre) post = true := by
  intro pre
  induction pre with
  | nil => intro n post hp; simpa [honours, acquired, released] using hp
  | cons op rest ih =>
    intro n post hp
    cases op with
    | queryInterface iid =>
      by_cases hs : supported kI kU iid = true
      · simp only [List.cons_append, honours, hs, if_true, Bool.and_eq_true,
          decide_eq_true_eq] at hp ⊢
        obtain ⟨h1, h2, h3⟩ := hp
        obtain ⟨a, b⟩ := ih (n + 1) post h3
        refine ⟨⟨h1, h2, a⟩, ?_⟩
        simp only [acquired, released, hs, if_true]
        have e : n + (1 + acquired kI kU rest) - released rest =
            n + 1 + acquired kI kU rest - released rest := by omega
        rw [e]; exact b
      · simp only [List.cons_append, honours, hs, Bool.and_eq_true,
          decide_eq_true_eq] at hp ⊢
        obtain ⟨h1, h3⟩ := hp
        obtain ⟨a, b⟩ := ih n post h3
        refine ⟨⟨h1, a⟩, ?_⟩
        simp only [acquired, released, hs]
        simpa using b
    | retain =>
      simp only [List.cons_append, honours, Bool.and_eq_true, decide_eq_true_eq] at hp ⊢
      obtain ⟨h1, h2, h3⟩ := hp
      obtain ⟨a, b⟩ := ih (n + 1) post h3
      refine ⟨⟨h1, h2, a⟩, ?_⟩
      simp only [acquired, released]
      have e : n + (1 + acquired kI kU rest) - released rest =
          n + 1 + acquired kI kU rest - released rest := by omega
      rw [e]; exact b
    | release =>
      simp only [List.cons_append, honours, Bool.and_eq_true, decide_eq_true_eq] at hp ⊢
      obtain ⟨h1, h3⟩ := hp
      obtain ⟨a, b⟩ := ih (n - 1) post h3
      refine ⟨⟨h1, a⟩, ?_⟩
      simp only [acquired, released]
      have e : n + acquired kI kU rest - (1 + released rest) =
          n - 1 + acquired kI kU rest - released rest := by omega
      rw [e]; exact b
    | invokeImport a1 a2 a3 =>
      simp only [List.cons_append, honours, Bool.and_eq_true, decide_eq_true_eq] at hp ⊢
      obtain ⟨h1, h3⟩ := hp
      obtain ⟨a, b⟩ := ih n post h3
      exact ⟨⟨h1, a⟩, by simpa [acquired, released] using b⟩

/-- The last call of a sequence is the last call of its tail, if there is one. -/
theorem getLast_cons_of_getLast (op x : Op) (rest : List Op)
    (hl : rest.getLast? = some x) : (op :: rest).getLast? = some x := by
  cases rest with
  | nil => simp at hl
  | cons a t => rw [List.getLast?_cons_cons]; exact hl

/-- Arithmetic of the ledger across one release. -/
theorem ledger_after_release (x r n a : Nat) (h1 : 1 ≤ n)
    (b : x + r = n - 1 + a) : x + (1 + r) = n + a := by
  omega

/-- The reference ledger of one object.  From an allocated object with
refCount `n` (a `UInt32` value, at least 1) a sequence of calls that honours
the protocol runs to the end; the object is allocated afterwards with
`refCount = n + acquired - released` as long as that is positive and `free`
was not called on it; when the ledger reaches 0 the object has been freed
exactly once, by the last call, a release. -/
theorem run_ledger (kI kU : CFUUID) (g : Analyzer) (h : Addr) (f : CFUUID) :
    ∀ (ops : List Op) (n : Nat) (s : State) (obj : MDImporterPluginType),
      s.heap h = some obj → obj.refCount = n → obj.factoryID = some f →
      1 ≤ n → n < UInt32Size → honours kI kU n ops = true →
      ∃ s', run kI kU g h ops s = some s' ∧
        released ops ≤ n + acquired kI kU ops ∧
        (released ops < n + acquired kI kU ops →
          ∃ obj', s'.heap h = some obj' ∧
            obj'.refCount + released ops = n + acquired kI kU ops ∧
            s'.log.count (Event.free h) = s.log.count (Event.free h)) ∧
        (released ops = n + acquired kI kU ops →
          s'.heap h = none ∧
          s'.log.count (Event.free h) = s.log.count (Event.free h) + 1 ∧
          ops.getLast? = some Op.release) := by
  intro ops
  induction ops with
  | nil =>
    intro n s obj hlive hn _ h1 _ _
    refine ⟨s, rfl, by simp [released], ?_, ?_⟩
    · intro _
      exact ⟨obj, hlive, by simp [released, acquired, hn], rfl⟩
    · intro he
      simp [released, acquired] at he
      omega
  | cons op rest ih =>
    intro n s obj hlive hn hf h1 hlt hp
    cases op with
    | retain =>
      simp only [honours, Bool.and_eq_true, decide_eq_true_eq] at hp
      obtain ⟨_, h2, h3⟩ := hp
      have hmod : (obj.refCount + 1) % UInt32Size = n + 1 := by
        rw [hn]; exact Nat.mod_eq_of_lt h2
      obtain ⟨s', hr, hle, hpos, hzero⟩ :=
        ih (n + 1) (s.store h { obj with refCount := (obj.refCount + 1) % UInt32Size })
          { obj with refCount := (obj.refCount + 1) % UInt32Size }
          (by simp [State.store]) hmod hf (by omega) h2 h3
      refine ⟨s', ?_, ?_, ?_, ?_⟩
      · simp only [run, call, addRef_eq h s obj hlive]
        exact hr
      · simp only [acquired, released]; clear hpos hzero; omega
      · intro hl
        simp only [acquired, released] at hl ⊢
        have hx := hpos (by clear hzero; omega)
        obtain ⟨obj', a, b, c⟩ := hx
        refine ⟨obj', a, ?_, by simpa [State.store] using c⟩
        omega
      · intro he
        simp only [acquired, released] at he
        have hx := hzero (by clear hpos; omega)
        obtain ⟨a, b, c⟩ := hx
        exact ⟨a, by simpa [State.store] using b, getLast_cons_of_getLast _ _ _ c⟩
    | release =>
      simp only [honours, Bool.and_eq_true, decide_eq_true_eq] at hp
      obtain ⟨_, h3⟩ := hp
      have hd : (obj.refCount + UInt32Size - 1) % UInt32Size = n - 1 := by
        rw [hn]; exact dec_mod n h1 hlt
      by_cases hone : n = 1
      · subst hone
        have hrest : rest = [] := honours_zero kI kU rest h3
        subst hrest
        have hstep := release_eq_zero h s obj f hlive hf (by rw [hd])
        refine ⟨(CFPlugInRemoveInstanceForFactory f
            (free h (s.store h { obj with refCount := 0 }))).emit (Event.cfRelease f),
          ?_, by simp [released, acquired], ?_, ?_⟩
        · simp only [run, call, hstep]
        · intro hl
          simp [released, acquired] at hl
        · intro _
          refine ⟨?_, ?_, rfl⟩
          · simp [State.emit, CFPlugInRemoveInstanceForFactory, free, State.store]
          · simp [State.emit, CFPlugInRemoveInstanceForFactory, free, State.store,
              List.count_append]
      · have hnz : (obj.refCount + UInt32Size - 1) % UInt32Size ≠ 0 := by
          rw [hd]; omega
        have hstep := release_eq_nonzero h s obj hlive hnz
        obtain ⟨s', hr, hle, hpos, hzero⟩ :=
          ih (n - 1)
            (s.store h { obj with refCount := (obj.refCount + UInt32Size - 1) % UInt32Size })
            { obj with refCount := (obj.refCount + UInt32Size - 1) % UInt32Size }
            (by simp [State.store]) hd hf (by omega) (by omega) h3
        refine ⟨s', ?_, ?_, ?_, ?_⟩
        · simp only [run, call, hstep]
          exact hr
        · simp only [acquired, released]; clear hpos hzero; omega
        · intro hl
          simp only [acquired, released] at hl ⊢
          have hx := hpos (by clear hzero; omega)
          obtain ⟨obj', a, b, c⟩ := hx
          exact ⟨obj', a, ledger_after_release _ _ _ _ h1 b,
            by simpa [State.store] using c⟩
        · intro he
          simp only [acquired, released] at he
          have hx := hzero (by clear hpos; omega)
          obtain ⟨a, b, c⟩ := hx
          exact ⟨a, by simpa [State.store] using b, getLast_cons_of_getLast _ _ _ c⟩
    | invokeImport a1 a2 a3 =>
      simp only [honours, Bool.and_eq_true, decide_eq_true_eq] at hp
      obtain ⟨_, h3⟩ := hp
      obtain ⟨s', hr, hle, hpos, hzero⟩ := ih n s obj hlive hn hf h1 hlt h3
      refine ⟨s', ?_, ?_, ?_, ?_⟩
      · simp only [run, call]
        exact hr
      · simpa only [acquired, released] using hle
      · intro hl
        simp only [acquired, released] at hl ⊢
        exact hpos hl
      · intro he
        simp only [acquired, released] at he
        obtain ⟨a, b, c⟩ := hzero he
        exact ⟨a, b, getLast_cons_of_getLast _ _ _ c⟩
    | queryInterface iid =>
      by_cases hs : supported kI kU iid = true
      · simp only [honours, hs, if_true, Bool.and_eq_true, decide_eq_true_eq] at hp
        obtain ⟨_, h2, h3⟩ := hp
        have hmod : (obj.refCount + 1) % UInt32Size = n + 1 := by
          rw [hn]; exact Nat.mod_eq_of_lt h2
        have hiid : iid = kU ∨ iid = kI := by
          have := hs
          simp only [supported, decide_eq_true_eq] at this
          exact this.symm
        have hstep := queryInterface_eq_ok kI kU h iid s obj hlive hiid
        have hs1 : ((((s.emit (Event.cfCreate iid)).store h
            { obj with vtable := VTablePtr.gVTable }).store h
            { vtable := VTablePtr.gVTable, factoryID := obj.factoryID,
              refCount := (obj.refCount + 1) % UInt32Size }).emit
            (Event.cfRelease iid)).heap h =
            some { vtable := VTablePtr.gVTable, factoryID := obj.factoryID,
                   refCount := (obj.refCount + 1) % UInt32Size } := by
          simp [State.store, State.emit]
        obtain ⟨s', hr, hle, hpos, hzero⟩ := ih (n + 1) _ _ hs1 hmod hf (by omega) h2 h3
        refine ⟨s', ?_, ?_, ?_, ?_⟩
        · simp only [run, call, hstep]
          exact hr
        · simp only [acquired, released, hs, if_true]; clear hpos hzero; omega
        · intro hl
          simp only [acquired, released, hs, if_true] at hl ⊢
          have hx := hpos (by clear hzero; omega)
          obtain ⟨obj', a, b, c⟩ := hx
          refine ⟨obj', a, ?_,
            by simpa [State.store, State.emit, List.count_append] using c⟩
          omega
        · intro he
          simp only [acquired, released, hs, if_true] at he
          have hx := hzero (by clear hpos; omega)
          obtain ⟨a, b, c⟩ := hx
          exact ⟨a, by simpa [State.store, State.emit, List.count_append] using b,
            getLast_cons_of_getLast _ _ _ c⟩
      · simp only [honours, hs, Bool.and_eq_true, decide_eq_true_eq] at hp
        obtain ⟨_, h3⟩ := hp
        have hne : iid ≠ kI ∧ iid ≠ kU := by
          have := hs
          simp only [supported, decide_eq_true_eq, not_or] at this
          exact this
        have hs0 : supported kI kU iid = false := Bool.not_eq_true _ ▸ hs
        have hstep := queryInterface_eq_fail kI kU h iid s hne.1 hne.2
        obtain ⟨s', hr, hle, hpos, hzero⟩ :=
          ih n ((s.emit (Event.cfCreate iid)).emit (Event.cfRelease iid)) obj
            (by simpa [State.emit] using hlive) hn hf h1 hlt h3
        refine ⟨s', ?_, ?_, ?_, ?_⟩
        · simp only [run, call, hstep]
          exact hr
        · simp only [acquired, released, hs0, Bool.false_eq_true, if_false]; clear hpos hzero; omega
        · intro hl
          simp only [acquired, released, hs0, Bool.false_eq_true, if_false] at hl ⊢
          have hx := hpos (by clear hzero; omega)
          obtain ⟨obj', a, b, c⟩ := hx
          refine ⟨obj', a, ?_,
            by simpa [State.emit, List.count_append] using c⟩
          omega
        · intro he
          simp only [acquired, released, hs0, Bool.false_eq_true, if_false] at he
          have hx := hzero (by clear hpos; omega)
          obtain ⟨a, b, c⟩ := hx
          exact ⟨a, by simpa [State.emit, List.count_append] using b,
            getLast_cons_of_getLast _ _ _ c⟩

/-- Counterexample to C9 as stated: `create` and then one `PluginAddRef` is a
sequence that honours the protocol; after it the refCount of the object is 2,
while the count of the specification (successful create and queryInterface
calls minus release calls) is 1. -/
theorem spec_ledger_counterexample :
    honours 5 6 1 [Op.retain] = true ∧
    ((MetadataImporterPluginFactory 7 16 7 State.init).bind fun r =>
      (run 5 6 (fun _ a _ _ => (true, a)) 16 [Op.retain] r.2).bind fun s1 =>
        (s1.heap r.1).map fun o => (o.refCount : Int)) = some 2 ∧
    specOutstanding 5 6 [Op.retain] = 1 := by
  refine ⟨by simp [honours, UInt32Size], ?_, by simp [specOutstanding, released]⟩
  rw [factory_eq 7 16 State.init (by decide)]
  simp only [Option.bind, run, call]
  rw [addRef_eq 16 _ (MDImporterPluginType.mk VTablePtr.gVTable (some kFactoryUUID) 1)
    (by simp [State.emit, State.store, CFPlugInAddInstanceForFactory])]
  simp [State.store, UInt32Size]

/-- C9, amended: create an object and let any sequence of calls that honours
the protocol follow.  At every point of the sequence (after any prefix `pre`)
the calls made so far have run without fault and the number of owning
references handed out (1 for the create, 1 for each successful queryInterface,
1 for each retain) minus the number of releases is the refCount of the
object, which is allocated and has not been freed as long as that number is
positive.  When it is zero the object has been freed exactly once, by the
last call made, which is a release, and no call follows. -/
theorem refcount_ledger (kT kI kU : CFUUID) (g : Analyzer) (m : Addr) (s : State)
    (pre post : List Op) (hm : m ≠ NULL)
    (hp : honours kI kU 1 (pre ++ post) = true) :
    ∃ s0 s', MetadataImporterPluginFactory kT m kT s = some (m, s0) ∧
      run kI kU g m pre s0 = some s' ∧
      released pre ≤ 1 + acquired kI kU pre ∧
      (released pre < 1 + acquired kI kU pre →
        ∃ obj, s'.heap m = some obj ∧
          obj.refCount + released pre = 1 + acquired kI kU pre ∧
          s'.log.count (Event.free m) = s0.log.count (Event.free m)) ∧
      (released pre = 1 + acquired kI kU pre →
        s'.heap m = none ∧
        s'.log.count (Event.free m) = s0.log.count (Event.free m) + 1 ∧
        pre.getLast? = some Op.release ∧ post = []) := by
  obtain ⟨hpre, hpost⟩ := honours_append kI kU pre 1 post hp
  obtain ⟨s', hr, hle, hpos, hzero⟩ :=
    run_ledger kI kU g m kFactoryUUID pre 1 _
      (MDImporterPluginType.mk VTablePtr.gVTable (some kFactoryUUID) 1)
      (by simp [State.emit, State.store, CFPlugInAddInstanceForFactory] :
        ((CFPlugInAddInstanceForFactory kFactoryUUID
          ((((s.emit (Event.cfCreate kFactoryUUID)).emit (Event.malloc m)).emit
            (Event.cfRetain kFactoryUUID)).store m
          { vtable := VTablePtr.gVTable, factoryID := some kFactoryUUID,
            refCount := 1 })).emit (Event.cfRelease kFactoryUUID)).heap m =
          some (MDImporterPluginType.mk VTablePtr.gVTable (some kFactoryUUID) 1))
      rfl rfl (le_refl 1) (by simp [UInt32Size]) hpre
  refine ⟨_, s', factory_eq kT m s hm, hr, hle, hpos, ?_⟩
  intro he
  obtain ⟨a, b, c⟩ := hzero he
  refine ⟨a, b, c, ?_⟩
  rw [← he, Nat.sub_self] at hpost
  exact honours_zero kI kU post hpost

/-- Witness of C9 amended: create, one successful queryInterface, two
releases; the second release frees the object. -/
theorem refcount_ledger_witness :
    ∃ s0 s', MetadataImporterPluginFactory 7 16 7 State.init = some (16, s0) ∧
      run 5 6 (fun _ a _ _ => (true, a)) 16
        [Op.queryInterface 5, Op.release, Op.release] s0 = some s' ∧
      s'.heap 16 = none ∧
      s'.log.count (Event.free 16) = s0.log.count (Event.free 16) + 1 :=
  (refcount_ledger 7 5 6 (fun _ a _ _ => (true, a)) 16 State.init
      [Op.queryInterface 5, Op.release, Op.release] [] (by decide)
      (by simp [honours, supported, UInt32Size])).imp
    fun _ h0 => h0.imp fun _ h1 =>
      ⟨h1.1, h1.2.1, (h1.2.2.2.2 (by simp [released, acquired, supported])).1,
        (h1.2.2.2.2 (by simp [released, acquired, supported])).2.1⟩

/-- The factory with a TypeID that is not the registered one. -/
theorem factory_eq_other (k : CFUUID) (m : Addr) (typeID : CFUUID) (s : State)
    (h : typeID ≠ k) : MetadataImporterPluginFactory k m typeID s = some (NULL, s) := by
  simp [MetadataImporterPluginFactory, h]

/-- The invariant holds before anything is created. -/
theorem inv_init : Inv State.init where
  wf := by intro p obj hp; simp [State.init] at hp
  others := by intro u _; rfl
  adds_eq := rfl
  removes_eq := rfl
  balance := by simp [State.init, frees, mallocs]
  live := ⟨∅, by simp [State.init], by simp [State.init]⟩

/-- The invariant is kept when only the effect log grows, by effects that are
neither allocation nor registry calls. -/
theorem inv_quiet (s s1 : State) (hi : Inv s)
    (hheap : s1.heap = s.heap) (hreg : s1.registry = s.registry)
    (h1 : mallocs s1.log = mallocs s.log) (h2 : frees s1.log = frees s.log)
    (h3 : adds s1.log = adds s.log) (h4 : removes s1.log = removes s.log) :
    Inv s1 where
  wf := by rw [hheap]; exact hi.wf
  others := by rw [hreg]; exact hi.others
  adds_eq := by rw [h3, h1]; exact hi.adds_eq
  removes_eq := by rw [h4, h2]; exact hi.removes_eq
  balance := by rw [hreg, h1, h2]; exact hi.balance
  live := by rw [hheap, hreg]; exact hi.live

/-- The invariant is kept when one allocated object is overwritten by a
well-formed one. -/
theorem inv_update (s s1 : State) (h : Addr) (obj : MDImporterPluginType)
    (hi : Inv s) (hlive : s.heap h ≠ none) (hwf : WellFormed obj)
    (hheap : s1.heap = Function.update s.heap h (some obj))
    (hreg : s1.registry = s.registry)
    (h1 : mallocs s1.log = mallocs s.log) (h2 : frees s1.log = frees s.log)
    (h3 : adds s1.log = adds s.log) (h4 : removes s1.log = removes s.log) :
    Inv s1 where
  wf := by
    intro p o hp
    rw [hheap] at hp
    by_cases e : p = h
    · subst e
      simp only [Function.update_same, Option.some.injEq] at hp
      rw [← hp]; exact hwf
    · rw [Function.update_noteq e] at hp
      exact hi.wf p o hp
  others := by rw [hreg]; exact hi.others
  adds_eq := by rw [h3, h1]; exact hi.adds_eq
  removes_eq := by rw [h4, h2]; exact hi.removes_eq
  balance := by rw [hreg, h1, h2]; exact hi.balance
  live := by
    obtain ⟨A, hA, hc⟩ := hi.live
    refine ⟨A, ?_, by rw [hreg]; exact hc⟩
    intro p
    rw [hheap, hA p]
    by_cases e : p = h
    · subst e
      simp [hlive]
    · rw [Function.update_noteq e]

/-- The invariant is kept by a creation at an address that held no object. -/
theorem inv_create (s s1 : State) (m : Addr) (hi : Inv s) (hfresh : s.heap m = none)
    (hheap : s1.heap = Function.update s.heap m
      (some { vtable := VTablePtr.gVTable, factoryID := some kFactoryUUID, refCount := 1 }))
    (hreg : s1.registry =
      Function.update s.registry kFactoryUUID (s.registry kFactoryUUID + 1))
    (h1 : mallocs s1.log = mallocs s.log + 1) (h2 : frees s1.log = frees s.log)
    (h3 : adds s1.log = adds s.log + 1) (h4 : removes s1.log = removes s.log) :
    Inv s1 where
  wf := by
    intro p o hp
    rw [hheap] at hp
    by_cases e : p = m
    · subst e
      simp only [Function.update_same, Option.some.injEq] at hp
      rw [← hp]
      exact ⟨rfl, rfl, by simp [UInt32Size]⟩
    · rw [Function.update_noteq e] at hp
      exact hi.wf p o hp
  others := by
    intro u hu
    rw [hreg, Function.update_noteq hu]
    exact hi.others u hu
  adds_eq := by rw [h3, h1, hi.adds_eq]
  removes_eq := by rw [h4, h2]; exact hi.removes_eq
  balance := by
    have := hi.balance
    rw [hreg, h1, h2, Function.update_same]
    push_cast
    omega
  live := by
    obtain ⟨A, hA, hc⟩ := hi.live
    have hm : m ∉ A := by
      rw [hA m]; simp [hfresh]
    refine ⟨insert m A, ?_, ?_⟩
    · intro p
      rw [hheap, Finset.mem_insert, hA p]
      by_cases e : p = m
      · subst e
        simp
      · rw [Function.update_noteq e]
        simp [e]
    · rw [Finset.card_insert_of_not_mem hm, hreg, Function.update_same]
      push_cast
      omega

/-- The invariant is kept by the destruction of an allocated object that is
registered under the factory identifier. -/
theorem inv_destroy (s s1 : State) (h : Addr) (hi : Inv s) (hlive : s.heap h ≠ none)
    (hheap : s1.heap = Function.update s.heap h none)
    (hreg : s1.registry =
      Function.update s.registry kFactoryUUID (s.registry kFactoryUUID - 1))
    (h1 : mallocs s1.log = mallocs s.log) (h2 : frees s1.log = frees s.log + 1)
    (h3 : adds s1.log = adds s.log) (h4 : removes s1.log = removes s.log + 1) :
    Inv s1 where
  wf := by
    intro p o hp
    rw [hheap] at hp
    by_cases e : p = h
    · subst e
      simp at hp
    · rw [Function.update_noteq e] at hp
      exact hi.wf p o hp
  others := by
    intro u hu
    rw [hreg, Function.update_noteq hu]
    exact hi.others u hu
  adds_eq := by rw [h3, h1]; exact hi.adds_eq
  removes_eq := by rw [h4, h2, hi.removes_eq]
  balance := by
    have := hi.balance
    rw [hreg, h1, h2, Function.update_same]
    push_cast
    omega
  live := by
    obtain ⟨A, hA, hc⟩ := hi.live
    have hm : h ∈ A := (hA h).2 hlive
    refine ⟨A.erase h, ?_, ?_⟩
    · intro p
      rw [hheap, Finset.mem_erase, hA p]
      by_cases e : p = h
      · subst e
        simp
      · rw [Function.update_noteq e]
        simp [e]
    · rw [Finset.card_erase_of_mem hm, hreg, Function.update_same]
      have hpos : 1 ≤ A.card := Finset.card_pos.2 ⟨h, hm⟩
      push_cast [hpos]
      omega

/-- There is at least one `UInt32` value. -/
theorem UInt32Size_pos : 0 < UInt32Size := by
  simp [UInt32Size]

/-- Every reachable state satisfies the invariant. -/
theorem reachable_inv (kT kI kU : CFUUID) (g : Analyzer) (s : State)
    (hr : Reachable kT kI kU g s) : Inv s := by
  induction hr with
  | init => exact inv_init
  | create s s1 m r typeID _ hm hfresh hstep ih =>
    by_cases e : typeID = kT
    · subst e
      rw [factory_eq typeID m s hm] at hstep
      simp only [Option.some.injEq, Prod.mk.injEq] at hstep
      obtain ⟨_, rfl⟩ := hstep
      refine inv_create s _ m ih hfresh ?_ ?_ ?_ ?_ ?_ ?_
      · simp [State.emit, State.store, CFPlugInAddInstanceForFactory]
      · simp [State.emit, State.store, CFPlugInAddInstanceForFactory]
      · simp [State.emit, State.store, CFPlugInAddInstanceForFactory, mallocs,
          List.countP_append]
      · simp [State.emit, State.store, CFPlugInAddInstanceForFactory, frees,
          List.countP_append]
      · simp [State.emit, State.store, CFPlugInAddInstanceForFactory, adds,
          List.countP_append]
      · simp [State.emit, State.store, CFPlugInAddInstanceForFactory, removes,
          List.countP_append]
    · rw [factory_eq_other kT m typeID s e] at hstep
      simp only [Option.some.injEq, Prod.mk.injEq] at hstep
      obtain ⟨_, rfl⟩ := hstep
      exact ih
  | call s s1 h op ret _ hstep ih =>
    cases op with
    | invokeImport a1 a2 a3 =>
      simp only [call, Option.some.injEq, Prod.mk.injEq] at hstep
      obtain ⟨_, rfl⟩ := hstep
      exact ih
    | retain =>
      cases hh : s.heap h with
      | none => simp [call, PluginAddRef, hh] at hstep
      | some obj =>
        rw [call, addRef_eq h s obj hh] at hstep
        simp only [Option.some.injEq, Prod.mk.injEq] at hstep
        obtain ⟨_, rfl⟩ := hstep
        have hw := ih.wf h obj hh
        exact inv_update s _ h
          { obj with refCount := (obj.refCount + 1) % UInt32Size } ih (by simp [hh])
          ⟨hw.1, hw.2.1, Nat.mod_lt _ UInt32Size_pos⟩ rfl rfl rfl rfl rfl rfl
    | release =>
      cases hh : s.heap h with
      | none => simp [call, PluginRelease, hh] at hstep
      | some obj =>
        have hw := ih.wf h obj hh
        by_cases hz : (obj.refCount + UInt32Size - 1) % UInt32Size = 0
        · rw [call, release_eq_zero h s obj kFactoryUUID hh hw.2.1 hz] at hstep
          simp only [Option.some.injEq, Prod.mk.injEq] at hstep
          obtain ⟨_, rfl⟩ := hstep
          refine inv_destroy s _ h ih (by simp [hh]) ?_ ?_ ?_ ?_ ?_ ?_
          · simp [State.emit, CFPlugInRemoveInstanceForFactory, free, State.store]
          · simp [State.emit, CFPlugInRemoveInstanceForFactory, free, State.store]
          · simp [State.emit, CFPlugInRemoveInstanceForFactory, free, State.store,
              mallocs, List.countP_append]
          · simp [State.emit, CFPlugInRemoveInstanceForFactory, free, State.store,
              frees, List.countP_append]
          · simp [State.emit, CFPlugInRemoveInstanceForFactory, free, State.store,
              adds, List.countP_append]
          · simp [State.emit, CFPlugInRemoveInstanceForFactory, free, State.store,
              removes, List.countP_append]
        · rw [call, release_eq_nonzero h s obj hh hz] at hstep
          simp only [Option.some.injEq, Prod.mk.injEq] at hstep
          obtain ⟨_, rfl⟩ := hstep
          exact inv_update s _ h
            { obj with refCount := (obj.refCount + UInt32Size - 1) % UInt32Size } ih
            (by simp [hh]) ⟨hw.1, hw.2.1, Nat.mod_lt _ UInt32Size_pos⟩
            rfl rfl rfl rfl rfl rfl
    | queryInterface iid =>
      by_cases hs : iid = kU ∨ iid = kI
      · cases hh : s.heap h with
        | none =>
          have hc : iid = kI ∨ iid = kU := hs.symm
          simp [call, QueryInterface, hc, State.emit, hh] at hstep
        | some obj =>
          rw [call, queryInterface_eq_ok kI kU h iid s obj hh hs] at hstep
          simp only [Option.some.injEq, Prod.mk.injEq] at hstep
          obtain ⟨_, rfl⟩ := hstep
          have hw := ih.wf h obj hh
          refine inv_update s _ h
            { vtable := VTablePtr.gVTable, factoryID := obj.factoryID,
              refCount := (obj.refCount + 1) % UInt32Size } ih (by simp [hh])
            ⟨rfl, hw.2.1, Nat.mod_lt _ UInt32Size_pos⟩ ?_ ?_ ?_ ?_ ?_ ?_
          · simp [State.emit, State.store]
          · simp [State.emit, State.store]
          · simp [State.emit, State.store, mallocs, List.countP_append]
          · simp [State.emit, State.store, frees, List.countP_append]
          · simp [State.emit, State.store, adds, List.countP_append]
          · simp [State.emit, State.store, removes, List.countP_append]
      · have hne : iid ≠ kI ∧ iid ≠ kU := by
          simp only [not_or] at hs
          exact ⟨hs.2, hs.1⟩
        rw [call, queryInterface_eq_fail kI kU h iid s hne.1 hne.2] at hstep
        simp only [Option.some.injEq, Prod.mk.injEq] at hstep
        obtain ⟨_, rfl⟩ := hstep
        refine inv_quiet s _ ih ?_ ?_ ?_ ?_ ?_ ?_
        · simp [State.emit]
        · simp [State.emit]
        · simp [State.emit, mallocs, List.countP_append]
        · simp [State.emit, frees, List.countP_append]
        · simp [State.emit, adds, List.countP_append]
        · simp [State.emit, removes, List.countP_append]

/-- The effects of a successful factory call, in program order. -/
theorem factory_log (k : CFUUID) (m : Addr) (s : State) (hm : m ≠ NULL) :
    ∃ s1, MetadataImporterPluginFactory k m k s = some (m, s1) ∧
      s1.heap = Function.update s.heap m
        (some { vtable := VTablePtr.gVTable, factoryID := some kFactoryUUID,
                refCount := 1 }) ∧
      s1.registry =
        Function.update s.registry kFactoryUUID (s.registry kFactoryUUID + 1) ∧
      s1.log = s.log ++
        [Event.cfCreate kFactoryUUID, Event.malloc m, Event.cfRetain kFactoryUUID,
         Event.addInstance kFactoryUUID, Event.cfRelease kFactoryUUID] := by
  refine ⟨_, factory_eq k m s hm, ?_, ?_, ?_⟩
  · simp [State.emit, State.store, CFPlugInAddInstanceForFactory]
  · simp [State.emit, State.store, CFPlugInAddInstanceForFactory]
  · simp [State.emit, State.store, CFPlugInAddInstanceForFactory]

/-- The effect log of `QueryInterface`, on both paths. -/
theorem queryInterface_log (kI kU : CFUUID) (h : Addr) (iid : CFUUID) (s s1 : State)
    (r : HRESULT) (ppv : Addr)
    (hq : QueryInterface kI kU h iid s = some (r, ppv, s1)) :
    s1.log = s.log ++ [Event.cfCreate iid, Event.cfRelease iid] ∧
      s1.registry = s.registry := by
  by_cases hs : iid = kU ∨ iid = kI
  · cases hh : s.heap h with
    | none =>
      have hc : iid = kI ∨ iid = kU := hs.symm
      simp [QueryInterface, hc, State.emit, hh] at hq
    | some obj =>
      rw [queryInterface_eq_ok kI kU h iid s obj hh hs] at hq
      simp only [Option.some.injEq, Prod.mk.injEq] at hq
      obtain ⟨_, _, rfl⟩ := hq
      simp [State.emit, State.store]
  · have hne : iid ≠ kI ∧ iid ≠ kU := by
      simp only [not_or] at hs
      exact ⟨hs.2, hs.1⟩
    rw [queryInterface_eq_fail kI kU h iid s hne.1 hne.2] at hq
    simp only [Option.some.injEq, Prod.mk.injEq] at hq
    obtain ⟨_, _, rfl⟩ := hq
    simp [State.emit]

/-- A history ends in a reachable state. -/
theorem history_reachable (kT kI kU : CFUUID) (g : Analyzer) (s : State) (c d : Nat)
    (hh : History kT kI kU g s c d) : Reachable kT kI kU g s := by
  induction hh with
  | init => exact Reachable.init
  | create s s1 m r typeID c d _ hm hfresh hstep ih =>
    exact Reachable.create s s1 m r typeID ih hm hfresh hstep
  | call s s1 h op ret c d _ hstep ih =>
    exact Reachable.call s s1 h op ret ih hstep

/-- In every history the registry has been incremented once for each factory
call that returned a handle and decremented once for each release that
returned 0, always for the factory identifier. -/
theorem history_counts (kT kI kU : CFUUID) (g : Analyzer) (s : State) (c d : Nat)
    (hh : History kT kI kU g s c d) :
    adds s.log = c ∧ removes s.log = d ∧
      s.log.count (Event.addInstance kFactoryUUID) = c ∧
      s.log.count (Event.removeInstance kFactoryUUID) = d := by
  induction hh with
  | init => simp [adds, removes, State.init]
  | create s s1 m r typeID c d _ hm hfresh hstep ih =>
    obtain ⟨i1, i2, i3, i4⟩ := ih
    by_cases e : typeID = kT
    · subst e
      obtain ⟨s2, h1, _, _, h4⟩ := factory_log typeID m s hm
      rw [h1] at hstep
      simp only [Option.some.injEq, Prod.mk.injEq] at hstep
      obtain ⟨rfl, rfl⟩ := hstep
      have hc : isCreation m = true := by simp [isCreation, hm]
      simp only [adds] at i1
      simp only [removes] at i2
      rw [h4, hc]
      simp [adds, removes, List.countP_append, List.count_append, i1, i2, i3, i4]
    · rw [factory_eq_other kT m typeID s e] at hstep
      simp only [Option.some.injEq, Prod.mk.injEq] at hstep
      obtain ⟨rfl, rfl⟩ := hstep
      have hc : isCreation NULL = false := by simp [isCreation]
      rw [hc]
      exact ⟨i1, i2, i3, i4⟩
  | call s s1 h op ret c d hprev hstep ih =>
    obtain ⟨i1, i2, i3, i4⟩ := ih
    cases op with
    | invokeImport a1 a2 a3 =>
      simp only [call, Option.some.injEq, Prod.mk.injEq] at hstep
      obtain ⟨rfl, rfl⟩ := hstep
      simp only [isDestruction]
      exact ⟨i1, i2, i3, i4⟩
    | retain =>
      cases hl : s.heap h with
      | none => simp [call, PluginAddRef, hl] at hstep
      | some obj =>
        rw [call, addRef_eq h s obj hl] at hstep
        simp only [Option.some.injEq, Prod.mk.injEq] at hstep
        obtain ⟨rfl, rfl⟩ := hstep
        simp only [isDestruction]
        exact ⟨i1, i2, i3, i4⟩
    | queryInterface iid =>
      cases hq : QueryInterface kI kU h iid s with
      | none => simp [call, hq] at hstep
      | some w =>
        obtain ⟨r, ppv, s2⟩ := w
        simp only [call, hq, Option.some.injEq, Prod.mk.injEq] at hstep
        obtain ⟨rfl, rfl⟩ := hstep
        obtain ⟨hl, _⟩ := queryInterface_log kI kU h iid s s2 r ppv hq
        simp only [adds] at i1
        simp only [removes] at i2
        rw [hl]
        simp [isDestruction, adds, removes, List.countP_append, List.count_append,
          i1, i2, i3, i4]
    | release =>
      cases hl : s.heap h with
      | none => simp [call, PluginRelease, hl] at hstep
      | some obj =>
        have hw := (reachable_inv kT kI kU g s
          (history_reachable kT kI kU g s c d hprev)).wf h obj hl
        by_cases hz : (obj.refCount + UInt32Size - 1) % UInt32Size = 0
        · rw [call, release_eq_zero h s obj kFactoryUUID hl hw.2.1 hz] at hstep
          simp only [Option.some.injEq, Prod.mk.injEq] at hstep
          obtain ⟨rfl, rfl⟩ := hstep
          simp only [adds] at i1
          simp only [removes] at i2
          simp [isDestruction, adds, removes, State.emit,
            CFPlugInRemoveInstanceForFactory, free, State.store, List.countP_append,
            List.count_append, i1, i2, i3, i4]
        · rw [call, release_eq_nonzero h s obj hl hz] at hstep
          simp only [Option.some.injEq, Prod.mk.injEq] at hstep
          obtain ⟨rfl, rfl⟩ := hstep
          simp only [isDestruction, hz, decide_False, Bool.false_eq_true, if_false,
            add_zero]
          exact ⟨i1, i2, i3, i4⟩

/-- C10: take any history from the empty registry: factory calls (with any
TypeID) and calls of queryInterface, retain, release and invokeImport on any
handles.  With `c` the number of factory calls that returned a handle and `d`
the number of release calls that returned 0 (the destructions), at the end
the registry count of the factory identifier is the number of allocated
objects, which is `c - d`: the created and not yet destroyed ones.  The
registry has been incremented exactly `c` times and decremented exactly `d`
times, each time for the factory identifier, and no other registry count has
changed.  As this holds after every call, each successful create makes
exactly one increment, each destroying release exactly one decrement, and no
other call touches the registry. -/
theorem registry_counts_live (kT kI kU : CFUUID) (g : Analyzer) (s : State)
    (c d : Nat) (hh : History kT kI kU g s c d) :
    ∃ A : Finset Addr, (∀ p, p ∈ A ↔ s.heap p ≠ none) ∧
      s.registry kFactoryUUID = (A.card : Int) ∧
      (A.card : Int) + (d : Int) = (c : Int) ∧
      adds s.log = c ∧ removes s.log = d ∧
      s.log.count (Event.addInstance kFactoryUUID) = c ∧
      s.log.count (Event.removeInstance kFactoryUUID) = d ∧
      mallocs s.log = c ∧ frees s.log = d ∧
      (∀ u, u ≠ kFactoryUUID → s.registry u = 0) := by
  have hi := reachable_inv kT kI kU g s (history_reachable kT kI kU g s c d hh)
  obtain ⟨h1, h2, h3, h4⟩ := history_counts kT kI kU g s c d hh
  obtain ⟨A, hA, hc⟩ := hi.live
  have hm : mallocs s.log = c := by rw [← hi.adds_eq, h1]
  have hf : frees s.log = d := by rw [← hi.removes_eq, h2]
  refine ⟨A, hA, hc.symm, ?_, h1, h2, h3, h4, hm, hf, hi.others⟩
  have hb := hi.balance
  rw [hm, hf] at hb
  rw [hc]
  exact hb

/-- Witness of C10: the history of one creation followed by the release of
the object; one successful create, one destruction, and the registry count
is back at 0 with no object allocated. -/
theorem registry_counts_live_witness :
    ∃ s1 s2, MetadataImporterPluginFactory 7 16 7 State.init = some (16, s1) ∧
      PluginRelease 16 s1 = some (0, s2) ∧
      ∃ A : Finset Addr, (∀ p, p ∈ A ↔ s2.heap p ≠ none) ∧
        s2.registry kFactoryUUID = (A.card : Int) ∧
        (A.card : Int) + ((1 : Nat) : Int) = ((1 : Nat) : Int) ∧
        adds s2.log = 1 ∧ removes s2.log = 1 :=
  have h1 := factory_eq 7 16 State.init (by decide)
  have h2 := release_eq_zero 16 _
    (MDImporterPluginType.mk VTablePtr.gVTable (some kFactoryUUID) 1) kFactoryUUID
    (show ((CFPlugInAddInstanceForFactory kFactoryUUID
        ((((State.init.emit (Event.cfCreate kFactoryUUID)).emit (Event.malloc 16)).emit
            (Event.cfRetain kFactoryUUID)).store 16
          (MDImporterPluginType.mk VTablePtr.gVTable (some kFactoryUUID) 1))).emit
        (Event.cfRelease kFactoryUUID)).heap 16 = _ by
      simp [State.emit, State.store, CFPlugInAddInstanceForFactory])
    rfl (by simp [UInt32Size])
  ⟨_, _, h1, h2,
    (registry_counts_live 7 5 6 (fun _ a _ _ => (true, a)) _ 1 1
      (History.call _ _ 16 Op.release (Ret.count 0) 1 0
        (History.create State.init _ 16 16 7 0 0 History.init (by decide) rfl h1)
        (by simp only [call, h2]))).imp
      fun _ hA => ⟨hA.1, hA.2.1, hA.2.2.1, hA.2.2.2.1, hA.2.2.2.2.1⟩⟩

/-- C11: the scenario of the specification, from the empty registry, `malloc`
returning the non-null address `m`.  After create the refCount is 1 and the
registry count of the factory identifier is 1; queryInterface for the importer
interface returns `S_OK` and the handle, refCount 2; the first release returns
1 and the registry count is still 1; the second release returns 0, the
registry count is 0 and the object has been freed. -/
theorem scenario_create_query_release (kT kI kU : CFUUID) (m : Addr) (hm : m ≠ NULL) :
    ∃ s1 s2 s3 s4 o1 o2,
      MetadataImporterPluginFactory kT m kT State.init = some (m, s1) ∧
      s1.heap m = some o1 ∧ o1.refCount = 1 ∧ s1.registry kFactoryUUID = 1 ∧
      QueryInterface kI kU m kI s1 = some (HRESULT.S_OK, m, s2) ∧
      s2.heap m = some o2 ∧ o2.refCount = 2 ∧
      PluginRelease m s2 = some (1, s3) ∧ s3.registry kFactoryUUID = 1 ∧
      PluginRelease m s3 = some (0, s4) ∧ s4.registry kFactoryUUID = 0 ∧
      s4.heap m = none ∧ frees s4.log = 1 := by
  obtain ⟨s1, h1, hh1, hr1, hl1⟩ : ∃ s1,
      MetadataImporterPluginFactory kT m kT State.init = some (m, s1) ∧
      s1.heap m = some (MDImporterPluginType.mk VTablePtr.gVTable (some kFactoryUUID) 1) ∧
      s1.registry kFactoryUUID = 1 ∧ frees s1.log = 0 :=
    ⟨_, factory_eq kT m State.init hm,
      by simp [State.emit, State.store, CFPlugInAddInstanceForFactory],
      by simp [State.emit, State.store, CFPlugInAddInstanceForFactory, State.init],
      by simp [State.emit, State.store, CFPlugInAddInstanceForFactory, State.init,
        frees, List.countP_append]⟩
  have two : (1 + 1) % UInt32Size = 2 := by simp [UInt32Size]
  obtain ⟨s2, h2, hh2, hr2, hl2⟩ : ∃ s2,
      QueryInterface kI kU m kI s1 = some (HRESULT.S_OK, m, s2) ∧
      s2.heap m = some (MDImporterPluginType.mk VTablePtr.gVTable (some kFactoryUUID) 2) ∧
      s2.registry kFactoryUUID = 1 ∧ frees s2.log = 0 :=
    ⟨_, queryInterface_eq_ok kI kU m kI s1 _ hh1 (Or.inr rfl),
      by simp [State.emit, State.store, two],
      by simpa [State.emit, State.store] using hr1,
      by simpa [State.emit, State.store, frees, List.countP_append] using hl1⟩
  have one : (2 + UInt32Size - 1) % UInt32Size = 1 := by simp [UInt32Size]
  obtain ⟨s3, h3, hh3, hr3, hl3⟩ : ∃ s3,
      PluginRelease m s2 = some (1, s3) ∧
      s3.heap m = some (MDImporterPluginType.mk VTablePtr.gVTable (some kFactoryUUID) 1) ∧
      s3.registry kFactoryUUID = 1 ∧ frees s3.log = 0 := by
    have h := release_eq_nonzero m s2 _ hh2
      (by show (2 + UInt32Size - 1) % UInt32Size ≠ 0; rw [one]; decide)
    simp only [one] at h
    exact ⟨_, h, by simp [State.store], by simpa [State.store] using hr2,
      by simpa [State.store] using hl2⟩
  have zero : (1 + UInt32Size - 1) % UInt32Size = 0 := by simp [UInt32Size]
  obtain ⟨s4, h4, hh4, hr4, hl4⟩ : ∃ s4,
      PluginRelease m s3 = some (0, s4) ∧ s4.heap m = none ∧
      s4.registry kFactoryUUID = 0 ∧ frees s4.log = 1 :=
    ⟨_, release_eq_zero m s3 _ kFactoryUUID hh3 rfl zero,
      by simp [State.emit, CFPlugInRemoveInstanceForFactory, free, State.store],
      by simp only [State.emit, CFPlugInRemoveInstanceForFactory, free, State.store,
        Function.update_same, hr3, sub_self],
      by
        simp only [frees] at hl3
        simp [State.emit, CFPlugInRemoveInstanceForFactory, free, State.store, frees,
          List.countP_append, hl3]⟩
  exact ⟨s1, s2, s3, s4, _, _, h1, hh1, rfl, hr1, h2, hh2, rfl, h3, hr3, h4, hr4, hh4, hl4⟩

/-- Witness of C11: the scenario with `malloc` returning address 16. -/
theorem scenario_create_query_release_witness :
    (16 : Addr) ≠ NULL ∧
    ∃ s1 s2 s3 s4 o1 o2,
      MetadataImporterPluginFactory 7 16 7 State.init = some (16, s1) ∧
      s1.heap 16 = some o1 ∧ o1.refCount = 1 ∧ s1.registry kFactoryUUID = 1 ∧
      QueryInterface 5 6 16 5 s1 = some (HRESULT.S_OK, 16, s2) ∧
      s2.heap 16 = some o2 ∧ o2.refCount = 2 ∧
      PluginRelease 16 s2 = some (1, s3) ∧ s3.registry kFactoryUUID = 1 ∧
      PluginRelease 16 s3 = some (0, s4) ∧ s4.registry kFactoryUUID = 0 ∧
      s4.heap 16 = none ∧ frees s4.log = 1 :=
  ⟨by decide, scenario_create_query_release 7 5 6 16 (by decide)⟩

/-- C12: for every analyzer `g`, `ImporterImportData` returns what one
application of `g` to the same four arguments, in the same order, returns:
the same flag and the dictionary as that one call leaves it.  An analyzer
that adds one entry per call has added exactly one entry, with the content
type and the path passed in.  The call through the dispatch table returns
that result and leaves the plugin state (heap with every refCount,
dispatch-table reference and owner identifier, registry, effect log) as it
was. -/
theorem importData_forwards (kI kU : CFUUID) (g : Analyzer) (h : Addr)
    (attributes : CFMutableDictionaryRef) (contentTypeUTI pathToFile : CFStringRef)
    (s : State) :
    ImporterImportData g h attributes contentTypeUTI pathToFile =
        g h attributes contentTypeUTI pathToFile ∧
      (ImporterImportData g h attributes contentTypeUTI pathToFile).1 =
        (g h attributes contentTypeUTI pathToFile).1 ∧
      ImporterImportData recordingAnalyzer h attributes contentTypeUTI pathToFile =
        (true, attributes ++ [(contentTypeUTI, pathToFile)]) ∧
      call kI kU g h (Op.invokeImport attributes contentTypeUTI pathToFile) s =
        some (Ret.bool (g h attributes contentTypeUTI pathToFile).1
          (g h attributes contentTypeUTI pathToFile).2, s) := by
  refine ⟨rfl, rfl, rfl, ?_⟩
  simp [call, ImporterImportData]

/-- Counterexample to C13 as stated: an allocated object whose refCount is the
largest `UInt32` value, asked for the importer interface; the call succeeds
and the refCount afterwards is 0, which is not greater than or equal to the
refCount before. -/
theorem queryInterface_wraps_counterexample :
    ((QueryInterface 5 6 16 5
        (State.init.store 16
          (MDImporterPluginType.mk VTablePtr.gVTable (some kFactoryUUID) 4294967295))).bind
      fun r => (r.2.2.heap 16).map fun o => (r.1, o.refCount)) =
        some (HRESULT.S_OK, 0) ∧
    ¬ (4294967295 ≤ 0) := by
  refine ⟨?_, by decide⟩
  rw [queryInterface_eq_ok 5 6 16 5 _
    (MDImporterPluginType.mk VTablePtr.gVTable (some kFactoryUUID) 4294967295)
    (by simp [State.store]) (Or.inr rfl)]
  simp [State.store, State.emit, UInt32Size]

/-- C13, amended: on an allocated object `QueryInterface`, whatever the
identifier, returns a result and never destroys the object: the object is
still allocated afterwards with the same owner identifier, the registry is
unchanged and the effect log gains no `free` and no deregistration.  The call
succeeds exactly for the two supported identifiers.  A failing call leaves the
object, and so its refCount, exactly as it was, at every refCount.  A
successful call stores `(refCount + 1) mod 2 ^ 32`.  So the refCount after the
call is greater than or equal to the refCount before, and strictly greater
exactly on success, in every case but one: a successful call at the largest
`UInt32` value, which leaves the count at 0. -/
theorem queryInterface_never_destroys (kI kU : CFUUID) (h : Addr) (iid : CFUUID)
    (s : State) (obj : MDImporterPluginType) (hlive : s.heap h = some obj) :
    ∃ r ppv s' obj', QueryInterface kI kU h iid s = some (r, ppv, s') ∧
      s'.heap h = some obj' ∧ obj'.factoryID = obj.factoryID ∧
      s'.registry = s.registry ∧
      frees s'.log = frees s.log ∧ removes s'.log = removes s.log ∧
      (r = HRESULT.S_OK ↔ (iid = kI ∨ iid = kU)) ∧
      (r ≠ HRESULT.S_OK → obj' = obj) ∧
      (r = HRESULT.S_OK → obj'.refCount = (obj.refCount + 1) % UInt32Size) ∧
      (¬ (r = HRESULT.S_OK ∧ obj.refCount + 1 = UInt32Size) →
        obj.refCount < UInt32Size →
        obj.refCount ≤ obj'.refCount ∧
        (obj.refCount < obj'.refCount ↔ r = HRESULT.S_OK)) ∧
      (r = HRESULT.S_OK → obj.refCount + 1 = UInt32Size → obj'.refCount = 0) := by
  by_cases hs : iid = kU ∨ iid = kI
  · refine ⟨HRESULT.S_OK, h, _,
      { vtable := VTablePtr.gVTable, factoryID := obj.factoryID,
        refCount := (obj.refCount + 1) % UInt32Size },
      queryInterface_eq_ok kI kU h iid s obj hlive hs, ?_, rfl, ?_, ?_, ?_, ?_, ?_, ?_,
      ?_, ?_⟩
    · simp [State.store, State.emit]
    · simp [State.store, State.emit]
    · simp [State.store, State.emit, frees, List.countP_append]
    · simp [State.store, State.emit, removes, List.countP_append]
    · simp [hs.symm]
    · intro hne
      exact absurd rfl hne
    · intro _
      rfl
    · intro hex hlt
      have hlt1 : obj.refCount + 1 < UInt32Size := by
        have hne : obj.refCount + 1 ≠ UInt32Size := fun e => hex ⟨rfl, e⟩
        omega
      simp only [Nat.mod_eq_of_lt hlt1]
      exact ⟨Nat.le_succ _, by simp⟩
    · intro _ hmax
      simp only [hmax, Nat.mod_self]
  · have hne : iid ≠ kI ∧ iid ≠ kU := by
      simp only [not_or] at hs
      exact ⟨hs.2, hs.1⟩
    refine ⟨HRESULT.E_NOINTERFACE, NULL, _, obj,
      queryInterface_eq_fail kI kU h iid s hne.1 hne.2, ?_, rfl, ?_, ?_, ?_, ?_, ?_, ?_,
      ?_, ?_⟩
    · simpa [State.emit] using hlive
    · simp [State.emit]
    · simp [State.emit, frees, List.countP_append]
    · simp [State.emit, removes, List.countP_append]
    · simp [hne.1, hne.2]
    · intro _
      rfl
    · intro hr
      exact absurd hr (by decide)
    · intro _ _
      exact ⟨le_refl _, by simp⟩
    · intro hr
      exact absurd hr (by decide)

/-- Witness of C13 amended: an object whose refCount is the largest `UInt32`
value, asked for an identifier that is not supported; the call fails and the
object, with its refCount, is as before. -/
theorem queryInterface_never_destroys_witness :
    ∃ r ppv s' obj', QueryInterface 5 6 16 9
        (State.init.store 16
          (MDImporterPluginType.mk VTablePtr.gVTable (some 4) 4294967295)) =
          some (r, ppv, s') ∧
      s'.heap 16 = some obj' ∧
      (r = HRESULT.S_OK ↔ ((9 : CFUUID) = 5 ∨ (9 : CFUUID) = 6)) ∧
      (r ≠ HRESULT.S_OK →
        obj' = MDImporterPluginType.mk VTablePtr.gVTable (some 4) 4294967295) :=
  (queryInterface_never_destroys 5 6 16 9
      (State.init.store 16
        (MDImporterPluginType.mk VTablePtr.gVTable (some 4) 4294967295))
      (MDImporterPluginType.mk VTablePtr.gVTable (some 4) 4294967295)
      (by simp [State.store])).imp
    fun _ hr => hr.imp fun _ hp => hp.imp fun _ hs => hs.imp fun _ ho =>
      ⟨ho.1, ho.2.1, ho.2.2.2.2.2.2.1, ho.2.2.2.2.2.2.2.1⟩

/-- C14: the static table `gVTable` has exactly five slots, in this order: a
reserved slot holding null, then `QueryInterface`, `PluginAddRef`,
`PluginRelease` and `ImporterImportData`; there is no sixth slot.  So the
slots 1 to 4 hold the functions for queryInterface, retain, release and
invokeImport, the functions `call` runs for these calls. -/
theorem gVTable_slots :
    gVTable.length = 5 ∧
    gVTable.get? 0 = some none ∧
    gVTable.get? 1 = some (some DispatchFn.QueryInterface) ∧
    gVTable.get? 2 = some (some DispatchFn.PluginAddRef) ∧
    gVTable.get? 3 = some (some DispatchFn.PluginRelease) ∧
    gVTable.get? 4 = some (some DispatchFn.ImporterImportData) ∧
    gVTable.get? 5 = none ∧
    gVTable.get? 1 = some (some (Op.target (Op.queryInterface 0))) ∧
    gVTable.get? 2 = some (some (Op.target Op.retain)) ∧
    gVTable.get? 3 = some (some (Op.target Op.release)) ∧
    gVTable.get? 4 = some (some (Op.target (Op.invokeImport [] "" ""))) := by
  refine ⟨rfl, rfl, rfl, rfl, rfl, rfl, rfl, rfl, rfl, rfl, rfl⟩

/-- The effects of the last release of an object that holds the identifier `f`,
in program order. -/
theorem release_last_log (h : Addr) (s : State) (obj : MDImporterPluginType)
    (f : CFUUID) (hlive : s.heap h = some obj) (hf : obj.factoryID = some f)
    (hone : obj.refCount = 1) :
    ∃ s', PluginRelease h s = some (0, s') ∧
      s'.log = s.log ++ [Event.free h, Event.removeInstance f, Event.cfRelease f] ∧
      s'.heap = Function.update s.heap h none ∧
      s'.registry = Function.update s.registry f (s.registry f - 1) := by
  have hz : (obj.refCount + UInt32Size - 1) % UInt32Size = 0 := by
    rw [hone]; simp [UInt32Size]
  refine ⟨_, release_eq_zero h s obj f hlive hf hz, ?_, ?_, ?_⟩
  · simp [State.emit, CFPlugInRemoveInstanceForFactory, free, State.store]
  · simp [State.emit, CFPlugInRemoveInstanceForFactory, free, State.store]
  · simp [State.emit, CFPlugInRemoveInstanceForFactory, free, State.store]

/-- Counterexample to C15 as stated: the last release of an object as the
factory builds it, at address 16.  The effects are, in this order, `free`,
the deregistration, the release of the identifier; so neither the
deregistration nor the release of the identifier comes before the storage is
deallocated. -/
theorem free_comes_first_counterexample :
    ((PluginRelease 16
        (State.init.store 16
          (MDImporterPluginType.mk VTablePtr.gVTable (some kFactoryUUID) 1))).map
      fun r => (r.1, r.2.log)) =
        some (0, [Event.free 16, Event.removeInstance kFactoryUUID,
                  Event.cfRelease kFactoryUUID]) ∧
    precedes (Event.removeInstance kFactoryUUID) (Event.free 16)
      [Event.free 16, Event.removeInstance kFactoryUUID,
       Event.cfRelease kFactoryUUID] = false ∧
    precedes (Event.cfRelease kFactoryUUID) (Event.free 16)
      [Event.free 16, Event.removeInstance kFactoryUUID,
       Event.cfRelease kFactoryUUID] = false := by
  refine ⟨?_, by decide, by decide⟩
  rw [release_eq_zero 16 _
    (MDImporterPluginType.mk VTablePtr.gVTable (some kFactoryUUID) 1) kFactoryUUID
    (by simp [State.store]) rfl (by simp [UInt32Size])]
  simp [State.emit, CFPlugInRemoveInstanceForFactory, free, State.store, State.init]

/-- C15, amended: on the release that brings the refCount of an object from 1
to 0 (the object holding the identifier `f`) the call returns 0 and its
effects are exactly these, in this order: first the storage of the object is
deallocated, then one instance of `f` is deregistered from the registry, then
the retained identifier is released. -/
theorem destruction_order (h : Addr) (s : State) (obj : MDImporterPluginType)
    (f : CFUUID) (hlive : s.heap h = some obj) (hf : obj.factoryID = some f)
    (hone : obj.refCount = 1) :
    ∃ s', PluginRelease h s = some (0, s') ∧
      s'.log = s.log ++ [Event.free h, Event.removeInstance f, Event.cfRelease f] ∧
      precedes (Event.free h) (Event.removeInstance f)
        [Event.free h, Event.removeInstance f, Event.cfRelease f] = true ∧
      precedes (Event.removeInstance f) (Event.cfRelease f)
        [Event.free h, Event.removeInstance f, Event.cfRelease f] = true := by
  obtain ⟨s', h1, h2, _, _⟩ := release_last_log h s obj f hlive hf hone
  refine ⟨s', h1, h2, ?_, ?_⟩
  · simp [precedes, List.indexOf_cons]
  · simp [precedes, List.indexOf_cons]

/-- Witness of C15 amended: the object at address 16 with refCount 1. -/
theorem destruction_order_witness :
    ∃ s', PluginRelease 16
        (State.init.store 16 (MDImporterPluginType.mk VTablePtr.gVTable (some 4) 1)) =
          some (0, s') ∧
      s'.log = (State.init.store 16
          (MDImporterPluginType.mk VTablePtr.gVTable (some 4) 1)).log ++
        [Event.free 16, Event.removeInstance 4, Event.cfRelease 4] ∧
      precedes (Event.free 16) (Event.removeInstance 4)
        [Event.free 16, Event.removeInstance 4, Event.cfRelease 4] = true ∧
      precedes (Event.removeInstance 4) (Event.cfRelease 4)
        [Event.free 16, Event.removeInstance 4, Event.cfRelease 4] = true :=
  destruction_order 16
    (State.init.store 16 (MDImporterPluginType.mk VTablePtr.gVTable (some 4) 1))
    (MDImporterPluginType.mk VTablePtr.gVTable (some 4) 1) 4
    (by simp [State.store]) rfl rfl

/-- Counterexample to C16 as stated: the factory is called with the TypeID
`8B08C4BF-415B-11D8-B3F9-000393672666` (the value of `kMDImporterTypeID` in
the system header), which is registered.  The identifier stored in the new
object, and the one the instance is registered under, is the factory
identifier `9AA4D26D-7C0E-4635-B941-E8F367BC4D0E`, not the TypeID passed. -/
theorem owner_identifier_counterexample :
    ((MetadataImporterPluginFactory 0x8B08C4BF415B11D8B3F9000393672666 16
        0x8B08C4BF415B11D8B3F9000393672666 State.init).bind
      fun r => (r.2.heap r.1).map fun o => (o.factoryID, r.2.log)) =
        some (some kFactoryUUID,
          [Event.cfCreate kFactoryUUID, Event.malloc 16, Event.cfRetain kFactoryUUID,
           Event.addInstance kFactoryUUID, Event.cfRelease kFactoryUUID]) ∧
    (some kFactoryUUID : CFUUIDRef) ≠ some 0x8B08C4BF415B11D8B3F9000393672666 ∧
    Event.addInstance kFactoryUUID ≠
      Event.addInstance 0x8B08C4BF415B11D8B3F9000393672666 := by
  refine ⟨?_, by decide, by decide⟩
  rw [factory_eq _ 16 State.init (by decide)]
  simp [State.emit, State.store, CFPlugInAddInstanceForFactory, State.init]

/-- C16, amended: the identifier stored in an object the factory creates is
the factory identifier `kFactoryUUID` of main.c line 102, whatever registered
TypeID was passed to create, and the instance is registered under that factory
identifier on construction.  In every reachable state every allocated object
still holds the factory identifier, and the release that destroys it
deregisters one instance of that same factory identifier. -/
theorem owner_is_factory_identifier (kT kI kU : CFUUID) (g : Analyzer) (s : State)
    (m : Addr) (hr : Reachable kT kI kU g s) (hm : m ≠ NULL) :
    (∃ s1 o, MetadataImporterPluginFactory kT m kT s = some (m, s1) ∧
      s1.heap m = some o ∧ o.factoryID = some kFactoryUUID ∧
      s1.registry =
        Function.update s.registry kFactoryUUID (s.registry kFactoryUUID + 1) ∧
      s1.log = s.log ++
        [Event.cfCreate kFactoryUUID, Event.malloc m, Event.cfRetain kFactoryUUID,
         Event.addInstance kFactoryUUID, Event.cfRelease kFactoryUUID]) ∧
    (∀ p obj, s.heap p = some obj →
      obj.factoryID = some kFactoryUUID ∧
      (obj.refCount = 1 →
        ∃ s2, PluginRelease p s = some (0, s2) ∧
          s2.log = s.log ++ [Event.free p, Event.removeInstance kFactoryUUID,
                             Event.cfRelease kFactoryUUID] ∧
          s2.registry = Function.update s.registry kFactoryUUID
            (s.registry kFactoryUUID - 1))) := by
  constructor
  · obtain ⟨s1, h1, h2, h3, h4⟩ := factory_log kT m s hm
    exact ⟨s1, MDImporterPluginType.mk VTablePtr.gVTable (some kFactoryUUID) 1, h1,
      by rw [h2]; simp, rfl, h3, h4⟩
  · intro p obj hp
    have hf := ((reachable_inv kT kI kU g s hr).wf p obj hp).2.1
    refine ⟨hf, fun hone => ?_⟩
    obtain ⟨s2, h1, h2, _, h4⟩ := release_last_log p s obj kFactoryUUID hp hf hone
    exact ⟨s2, h1, h2, h4⟩

/-- Witness of C16 amended: the first creation in a fresh process, for the
TypeID of the system header. -/
theorem owner_is_factory_identifier_witness :
    ∃ s1 o, MetadataImporterPluginFactory 0x8B08C4BF415B11D8B3F9000393672666 16
        0x8B08C4BF415B11D8B3F9000393672666 State.init = some (16, s1) ∧
      s1.heap 16 = some o ∧ o.factoryID = some kFactoryUUID ∧
      s1.registry = Function.update State.init.registry kFactoryUUID
        (State.init.registry kFactoryUUID + 1) ∧
      s1.log = State.init.log ++
        [Event.cfCreate kFactoryUUID, Event.malloc 16, Event.cfRetain kFactoryUUID,
         Event.addInstance kFactoryUUID, Event.cfRelease kFactoryUUID] :=
  (owner_is_factory_identifier 0x8B08C4BF415B11D8B3F9000393672666 5 6
    (fun _ a _ _ => (true, a)) State.init 16 Reachable.init (by decide)).1

/-- C17: in every reachable state the dispatch-table reference of every
allocated object is the static table `gVTable`.  So the assignment
`vtable = &gVTable` that a successful `QueryInterface` makes leaves the state
as it is, making it twice is the same as making it once, and after a
successful `QueryInterface` (and after a second one) the reference is the one
the object had before. -/
theorem reachable_vtable_static (kT kI kU : CFUUID) (g : Analyzer) (s : State)
    (p : Addr) (obj : MDImporterPluginType)
    (hr : Reachable kT kI kU g s) (hlive : s.heap p = some obj) :
    obj.vtable = VTablePtr.gVTable ∧
    s.store p { obj with vtable := VTablePtr.gVTable } = s ∧
    (s.store p { obj with vtable := VTablePtr.gVTable }).store p
        { obj with vtable := VTablePtr.gVTable } =
      s.store p { obj with vtable := VTablePtr.gVTable } ∧
    (∀ iid, iid = kU ∨ iid = kI →
      ∃ s1 o1 s2 o2, QueryInterface kI kU p iid s = some (HRESULT.S_OK, p, s1) ∧
        s1.heap p = some o1 ∧ o1.vtable = obj.vtable ∧
        QueryInterface kI kU p iid s1 = some (HRESULT.S_OK, p, s2) ∧
        s2.heap p = some o2 ∧ o2.vtable = obj.vtable) := by
  have hv : obj.vtable = VTablePtr.gVTable :=
    ((reachable_inv kT kI kU g s hr).wf p obj hlive).1
  refine ⟨hv, ?_, store_store _ _ _ _, ?_⟩
  · have e : ({ obj with vtable := VTablePtr.gVTable } : MDImporterPluginType) = obj := by
      cases obj
      simp only [MDImporterPluginType.mk.injEq, and_true]
      exact hv.symm
    rw [e]
    exact store_self s p obj hlive
  · intro iid hiid
    obtain ⟨s1, h1, hh1⟩ : ∃ s1,
        QueryInterface kI kU p iid s = some (HRESULT.S_OK, p, s1) ∧
        s1.heap p = some (MDImporterPluginType.mk VTablePtr.gVTable obj.factoryID
            ((obj.refCount + 1) % UInt32Size)) :=
      ⟨_, queryInterface_eq_ok kI kU p iid s obj hlive hiid,
        by simp [State.store, State.emit]⟩
    obtain ⟨s2, h2, hh2⟩ : ∃ s2,
        QueryInterface kI kU p iid s1 = some (HRESULT.S_OK, p, s2) ∧
        s2.heap p = some (MDImporterPluginType.mk VTablePtr.gVTable obj.factoryID
            (((obj.refCount + 1) % UInt32Size + 1) % UInt32Size)) :=
      ⟨_, queryInterface_eq_ok kI kU p iid s1 _ hh1 hiid,
        by simp [State.store, State.emit]⟩
    exact ⟨s1, _, s2, _, h1, hh1, hv.symm, h2, hh2, hv.symm⟩

/-- Witness of C17: the object of the first creation in a fresh process. -/
theorem reachable_vtable_static_witness :
    ∃ s1, MetadataImporterPluginFactory 7 16 7 State.init = some (16, s1) ∧
      s1.store 16 (MDImporterPluginType.mk VTablePtr.gVTable (some kFactoryUUID) 1) = s1 :=
  ⟨_, factory_eq 7 16 State.init (by decide),
    (reachable_vtable_static 7 5 6 (fun _ a _ _ => (true, a)) _ 16
      (MDImporterPluginType.mk VTablePtr.gVTable (some kFactoryUUID) 1)
      (Reachable.create State.init _ 16 16 7 Reachable.init (by decide) rfl
        (factory_eq 7 16 State.init (by decide)))
      (by simp [State.emit, State.store, CFPlugInAddInstanceForFactory])).2.1⟩

/-- The ownership balance of a log is the sum of the balances of its parts. -/
theorem cfBalance_append (u : CFUUID) (l1 l2 : List Event) :
    cfBalance u (l1 ++ l2) = cfBalance u l1 + cfBalance u l2 := by
  simp only [cfBalance, List.count_append]
  push_cast
  ring

/-- The temporary identifier of `QueryInterface` is created and released. -/
theorem cfBalance_temporary (u iid : CFUUID) :
    cfBalance u [Event.cfCreate iid, Event.cfRelease iid] = 0 := by
  by_cases e : iid = u
  · simp [cfBalance, List.count_cons, e]
  · simp [cfBalance, List.count_cons, e]

/-- A creation leaves one reference to the factory identifier. -/
theorem cfBalance_creation (u : CFUUID) (m : Addr) :
    cfBalance u [Event.cfCreate kFactoryUUID, Event.malloc m,
        Event.cfRetain kFactoryUUID, Event.addInstance kFactoryUUID,
        Event.cfRelease kFactoryUUID] =
      if kFactoryUUID = u then 1 else 0 := by
  by_cases e : kFactoryUUID = u
  · simp [cfBalance, List.count_cons, e]
  · simp [cfBalance, List.count_cons, e]

/-- A destruction gives one reference to the identifier back. -/
theorem cfBalance_destruction (u f : CFUUID) (h : Addr) :
    cfBalance u [Event.free h, Event.removeInstance f, Event.cfRelease f] =
      if f = u then -1 else 0 := by
  by_cases e : f = u
  · simp [cfBalance, List.count_cons, e]
  · simp [cfBalance, List.count_cons, e]

/-- In every reachable state the references held on each identifier object
are as many as the registry counts instances of it. -/
theorem reachable_balance (kT kI kU : CFUUID) (g : Analyzer) (s : State)
    (hr : Reachable kT kI kU g s) : ∀ u, cfBalance u s.log = s.registry u := by
  induction hr with
  | init => intro u; simp [cfBalance, State.init]
  | create s s1 m r typeID hprev hm hfresh hstep ih =>
    intro u
    by_cases e : typeID = kT
    · subst e
      obtain ⟨s2, h1, _, h3, h4⟩ := factory_log typeID m s hm
      rw [h1] at hstep
      simp only [Option.some.injEq, Prod.mk.injEq] at hstep
      obtain ⟨_, rfl⟩ := hstep
      rw [h4, h3, cfBalance_append, cfBalance_creation, ih u]
      by_cases e : kFactoryUUID = u
      · subst e
        simp
      · rw [if_neg e, Function.update_noteq (Ne.symm e)]
        simp
    · rw [factory_eq_other kT m typeID s e] at hstep
      simp only [Option.some.injEq, Prod.mk.injEq] at hstep
      obtain ⟨_, rfl⟩ := hstep
      exact ih u
  | call s s1 h op ret hprev hstep ih =>
    intro u
    cases op with
    | invokeImport a1 a2 a3 =>
      simp only [call, Option.some.injEq, Prod.mk.injEq] at hstep
      obtain ⟨_, rfl⟩ := hstep
      exact ih u
    | retain =>
      cases hh : s.heap h with
      | none => simp [call, PluginAddRef, hh] at hstep
      | some obj =>
        rw [call, addRef_eq h s obj hh] at hstep
        simp only [Option.some.injEq, Prod.mk.injEq] at hstep
        obtain ⟨_, rfl⟩ := hstep
        exact ih u
    | release =>
      cases hh : s.heap h with
      | none => simp [call, PluginRelease, hh] at hstep
      | some obj =>
        have hw := (reachable_inv kT kI kU g s hprev).wf h obj hh
        by_cases hz : (obj.refCount + UInt32Size - 1) % UInt32Size = 0
        · rw [call, release_eq_zero h s obj kFactoryUUID hh hw.2.1 hz] at hstep
          simp only [Option.some.injEq, Prod.mk.injEq] at hstep
          obtain ⟨_, rfl⟩ := hstep
          have hl : ((CFPlugInRemoveInstanceForFactory kFactoryUUID
              (free h (s.store h { obj with refCount := 0 }))).emit
                (Event.cfRelease kFactoryUUID)).log =
              s.log ++ [Event.free h, Event.removeInstance kFactoryUUID,
                Event.cfRelease kFactoryUUID] := by
            simp [State.emit, CFPlugInRemoveInstanceForFactory, free, State.store]
          have hg : ((CFPlugInRemoveInstanceForFactory kFactoryUUID
              (free h (s.store h { obj with refCount := 0 }))).emit
                (Event.cfRelease kFactoryUUID)).registry =
              Function.update s.registry kFactoryUUID (s.registry kFactoryUUID - 1) := by
            simp [State.emit, CFPlugInRemoveInstanceForFactory, free, State.store]
          rw [hl, hg, cfBalance_append, cfBalance_destruction, ih u]
          by_cases e : kFactoryUUID = u
          · subst e
            simp
            ring
          · rw [if_neg e, Function.update_noteq (Ne.symm e)]
            simp
        · rw [call, release_eq_nonzero h s obj hh hz] at hstep
          simp only [Option.some.injEq, Prod.mk.injEq] at hstep
          obtain ⟨_, rfl⟩ := hstep
          exact ih u
    | queryInterface iid =>
      cases hq : QueryInterface kI kU h iid s with
      | none => simp [call, hq] at hstep
      | some w =>
        obtain ⟨r, ppv, s2⟩ := w
        simp only [call, hq, Option.some.injEq, Prod.mk.injEq] at hstep
        obtain ⟨_, rfl⟩ := hstep
        obtain ⟨hl, hg⟩ := queryInterface_log kI kU h iid s s2 r ppv hq
        rw [hl, hg, cfBalance_append, cfBalance_temporary, ih u]
        simp

/-- C18: with CoreFoundation ownership read off the effect log, in every
reachable state the code holds exactly one reference to the factory
identifier for each allocated object and no reference to any other
identifier object; when no object is allocated the balance of every
identifier is zero.  `QueryInterface` returns on both paths (for an
unsupported identifier on any handle, for a supported one on every allocated
object) and its effects on identifier objects are exactly the creation of its
temporary identifier followed by one release of it, so no balance changes.  A
creation consists of the creation of the factory identifier, the retain by
`AllocPlugin` and the release by the factory, a net gain of one reference;
the release that destroys an object gives that reference back. -/
theorem cf_ownership_balanced (kT kI kU : CFUUID) (g : Analyzer) (s : State)
    (hr : Reachable kT kI kU g s) :
    (∃ A : Finset Addr, (∀ p, p ∈ A ↔ s.heap p ≠ none) ∧
      cfBalance kFactoryUUID s.log = (A.card : Int)) ∧
    (∀ u, u ≠ kFactoryUUID → cfBalance u s.log = 0) ∧
    ((∀ p, s.heap p = none) → ∀ u, cfBalance u s.log = 0) ∧
    (∀ h iid, iid ≠ kI → iid ≠ kU →
      ∃ s1, QueryInterface kI kU h iid s = some (HRESULT.E_NOINTERFACE, NULL, s1) ∧
        s1.log = s.log ++ [Event.cfCreate iid, Event.cfRelease iid] ∧
        ∀ u, cfBalance u s1.log = cfBalance u s.log) ∧
    (∀ h iid obj, s.heap h = some obj → iid = kU ∨ iid = kI →
      ∃ s1, QueryInterface kI kU h iid s = some (HRESULT.S_OK, h, s1) ∧
        s1.log = s.log ++ [Event.cfCreate iid, Event.cfRelease iid] ∧
        ∀ u, cfBalance u s1.log = cfBalance u s.log) ∧
    (∀ m, m ≠ NULL →
      ∃ s1, MetadataImporterPluginFactory kT m kT s = some (m, s1) ∧
        s1.log = s.log ++
          [Event.cfCreate kFactoryUUID, Event.malloc m, Event.cfRetain kFactoryUUID,
           Event.addInstance kFactoryUUID, Event.cfRelease kFactoryUUID] ∧
        cfBalance kFactoryUUID s1.log = cfBalance kFactoryUUID s.log + 1) ∧
    (∀ p obj, s.heap p = some obj → obj.refCount = 1 →
      ∃ s2, PluginRelease p s = some (0, s2) ∧
        s2.log = s.log ++ [Event.free p, Event.removeInstance kFactoryUUID,
                           Event.cfRelease kFactoryUUID] ∧
        cfBalance kFactoryUUID s2.log = cfBalance kFactoryUUID s.log - 1) := by
  have hi := reachable_inv kT kI kU g s hr
  have hb := reachable_balance kT kI kU g s hr
  obtain ⟨A, hA, hc⟩ := hi.live
  have hother : ∀ u, u ≠ kFactoryUUID → cfBalance u s.log = 0 := by
    intro u hu
    rw [hb u]
    exact hi.others u hu
  have htemp : ∀ (s1 : State) (iid : CFUUID),
      s1.log = s.log ++ [Event.cfCreate iid, Event.cfRelease iid] →
      ∀ u, cfBalance u s1.log = cfBalance u s.log := by
    intro s1 iid hl u
    rw [hl, cfBalance_append, cfBalance_temporary]
    simp
  refine ⟨⟨A, hA, by rw [hb, hc]⟩, hother, ?_, ?_, ?_, ?_, ?_⟩
  · intro hempty u
    by_cases e : u = kFactoryUUID
    · subst e
      have hA0 : A = ∅ := by
        apply Finset.eq_empty_of_forall_not_mem
        intro p hp
        exact (hA p).1 hp (hempty p)
      rw [hb, ← hc, hA0]
      simp
    · exact hother u e
  · intro h iid hI hU
    have hq := queryInterface_eq_fail kI kU h iid s hI hU
    obtain ⟨hl, _⟩ := queryInterface_log kI kU h iid s _ _ _ hq
    exact ⟨_, hq, hl, htemp _ iid hl⟩
  · intro h iid obj hlive hiid
    have hq := queryInterface_eq_ok kI kU h iid s obj hlive hiid
    obtain ⟨hl, _⟩ := queryInterface_log kI kU h iid s _ _ _ hq
    exact ⟨_, hq, hl, htemp _ iid hl⟩
  · intro m hm
    obtain ⟨s1, h1, _, _, h4⟩ := factory_log kT m s hm
    refine ⟨s1, h1, h4, ?_⟩
    rw [h4, cfBalance_append, cfBalance_creation]
    simp
  · intro p obj hp hone
    have hf := (hi.wf p obj hp).2.1
    obtain ⟨s2, h1, h2, _, _⟩ := release_last_log p s obj kFactoryUUID hp hf hone
    refine ⟨s2, h1, h2, ?_⟩
    rw [h2, cfBalance_append, cfBalance_destruction]
    simp
    ring

/-- Witness of C18: a complete lifecycle.  The first creation in a fresh
process gains one reference to the factory identifier; on the new object a
`QueryInterface` for the importer interface and one for an unsupported
identifier both return, each with its temporary identifier created and
released once; the release of the object gives the reference back. -/
theorem cf_ownership_balanced_witness :
    ∃ s1, MetadataImporterPluginFactory 7 16 7 State.init = some (16, s1) ∧
      cfBalance kFactoryUUID s1.log = cfBalance kFactoryUUID State.init.log + 1 ∧
      (∃ s2, QueryInterface 5 6 16 5 s1 = some (HRESULT.S_OK, 16, s2) ∧
        s2.log = s1.log ++ [Event.cfCreate 5, Event.cfRelease 5]) ∧
      (∃ s2, QueryInterface 5 6 16 9 s1 = some (HRESULT.E_NOINTERFACE, NULL, s2) ∧
        s2.log = s1.log ++ [Event.cfCreate 9, Event.cfRelease 9]) ∧
      (∃ s2, PluginRelease 16 s1 = some (0, s2) ∧
        cfBalance kFactoryUUID s2.log = cfBalance kFactoryUUID s1.log - 1) := by
  have h1 := factory_eq 7 16 State.init (by decide)
  have hlive : ((CFPlugInAddInstanceForFactory kFactoryUUID
        ((((State.init.emit (Event.cfCreate kFactoryUUID)).emit (Event.malloc 16)).emit
            (Event.cfRetain kFactoryUUID)).store 16
          (MDImporterPluginType.mk VTablePtr.gVTable (some kFactoryUUID) 1))).emit
        (Event.cfRelease kFactoryUUID)).heap 16 =
      some (MDImporterPluginType.mk VTablePtr.gVTable (some kFactoryUUID) 1) := by
    simp [State.emit, State.store, CFPlugInAddInstanceForFactory]
  have hthm := cf_ownership_balanced 7 5 6 (fun _ a _ _ => (true, a)) _
    (Reachable.create State.init _ 16 16 7 Reachable.init (by decide) rfl h1)
  obtain ⟨s1, e1, _, hb⟩ := (cf_ownership_balanced 7 5 6 (fun _ a _ _ => (true, a))
    State.init Reachable.init).2.2.2.2.2.1 16 (by decide)
  rw [h1] at e1
  simp only [Option.some.injEq, Prod.mk.injEq, true_and] at e1
  subst e1
  exact ⟨_, h1, hb,
    (hthm.2.2.2.2.1 16 5 _ hlive (Or.inr rfl)).imp fun _ hs => ⟨hs.1, hs.2.1⟩,
    (hthm.2.2.2.1 16 9 (by decide) (by decide)).imp fun _ hs => ⟨hs.1, hs.2.1⟩,
    (hthm.2.2.2.2.2.2 16 _ hlive rfl).imp fun _ hs => ⟨hs.1, hs.2.2⟩⟩

end IFFSpotlightImporter
